import Mathlib

/-!
Verification model of `src/vmdk/sparse.c` (open-vmdk): the stream-optimized
VMDK sparse-extent writer and the sparse reader.

Modelling conventions:
* machine integers are `Nat`; an explicit `% 2 ^ 32` (resp. `% 2 ^ 64`) is
  inserted exactly where the C program stores into a `uint32_t` (resp. where a
  `uint64_t` computation can wrap): the `GTs` field computed by `getGDGT`, the
  writer's `curSP` cursor, and the reader's initial `grainNr = pos / grainBytes`.
  The reader's in-loop `grainNr++` is modelled without the `uint32_t` wrap;
  every theorem touching that loop carries a bound making the two agree
  (for larger parameters the C loop re-reads low grains or never terminates).
* the on-disk sparse extent header struct (`SparseExtentHeaderOnDisk`, defined
  in `vmware_vmdk.h`, which is not part of the given sources) is modelled from
  the spec as a record of numeric field values; multi-byte values stored inside
  the data area of the file (grain tables, grain directory, frame headers) are
  modelled at byte level with explicit little-endian encoding.
* the zlib codec is external to the repository; it is modelled by a `Codec`
  bundle: a lossless `deflate`/`inflate` pair obeying zlib's `deflateBound`
  contract.  File i/o is modelled by a byte store; `pwrite`/`pread` of length 0
  succeed without touching the store, matching POSIX.
-/

/-! ## Little-endian byte codecs -/

def le16 (v : Nat) : List Nat := [v % 256, v / 256 % 256]

def le32 (v : Nat) : List Nat :=
  [v % 256, v / 256 % 256, v / 65536 % 256, v / 16777216 % 256]

def le64 (v : Nat) : List Nat :=
  [v % 256, v / 256 % 256, v / 65536 % 256, v / 16777216 % 256,
   v / 4294967296 % 256, v / 1099511627776 % 256,
   v / 281474976710656 % 256, v / 72057594037927936 % 256]

/-- Little-endian decode: the byte at index 0 is least significant. -/
def decodeLE (bs : List Nat) : Nat := bs.foldr (fun b acc => b + 256 * acc) 0

/-- Decode the 32-bit little-endian entry at (4-byte) index `i` of a byte list. -/
def le32At (l : List Nat) (i : Nat) : Nat := decodeLE ((l.drop (4 * i)).take 4)

/-- Decode the 32-bit little-endian entry at (4-byte) index `j` of a byte store. -/
def entry32 (mem : Nat → Nat) (j : Nat) : Nat :=
  decodeLE [mem (4 * j), mem (4 * j + 1), mem (4 * j + 2), mem (4 * j + 3)]

/-! ## Constants

`SPARSE_MAGICNUMBER`, the flag bits, the newline-detector bytes and
`GRAIN_MARKER_EOS` are defined in `vmware_vmdk.h`, which is not among the given
sources; their values are modelled from the spec and the public VMDK format
description. -/

def SPARSE_MAGICNUMBER : Nat := 0x564d444b

def SPARSE_VERSION_INCOMPAT_FLAGS : Nat := 3

def SPARSEFLAG_VALID_NEWLINE_DETECTOR : Nat := 1

def SPARSEFLAG_COMPRESSED : Nat := 0x10000

def SPARSEFLAG_EMBEDDED_LBA : Nat := 0x20000

def SPARSEFLAG_INCOMPAT_FLAGS : Nat := 0xffff0000

def SPARSE_SINGLE_END_LINE_CHAR : Nat := 10

def SPARSE_NON_END_LINE_CHAR : Nat := 32

def SPARSE_DOUBLE_END_LINE_CHAR1 : Nat := 13

def SPARSE_DOUBLE_END_LINE_CHAR2 : Nat := 10

def SPARSE_COMPRESSALGORITHM_DEFLATE : Nat := 1

def GRAIN_MARKER_EOS : Nat := 0

def VMDK_SECTOR_SIZE : Nat := 512

def CEILING (x y : Nat) : Nat := (x + y - 1) / y

/-! ## Header structures -/

/-- On-disk sparse extent header, as a record of numeric field values.
Modelled from the spec: the 512-byte little-endian struct
`SparseExtentHeaderOnDisk` is declared in `vmware_vmdk.h`, which is not part of
the given sources, so its byte layout is not fixed here; each field holds the
decoded numeric value. -/
structure SparseExtentHeaderOnDisk where
  magicNumber : Nat
  version : Nat
  flags : Nat
  singleEndLineChar : Nat
  nonEndLineChar : Nat
  doubleEndLineChar1 : Nat
  doubleEndLineChar2 : Nat
  compressAlgorithm : Nat
  uncleanShutdown : Nat
  capacity : Nat
  grainSize : Nat
  descriptorOffset : Nat
  descriptorSize : Nat
  numGTEsPerGT : Nat
  rgdOffset : Nat
  gdOffset : Nat
  overHead : Nat
  deriving Repr, DecidableEq

/-- In-memory parsed header (`SparseExtentHeader` in the C source). -/
structure SparseExtentHeader where
  version : Nat
  flags : Nat
  compressAlgorithm : Nat
  uncleanShutdown : Nat
  reserved : Nat
  capacity : Nat
  grainSize : Nat
  descriptorOffset : Nat
  descriptorSize : Nat
  numGTEsPerGT : Nat
  rgdOffset : Nat
  gdOffset : Nat
  overHead : Nat
  deriving Repr, DecidableEq

/-- Translation of `checkSparseExtentHeader`. -/
def checkSparseExtentHeader (src : SparseExtentHeaderOnDisk) : Bool :=
  src.magicNumber == SPARSE_MAGICNUMBER

/-- Translation of `getSparseExtentHeader` (sparse.c lines 73-114): validate
the on-disk header and copy its fields. -/
def getSparseExtentHeader (src : SparseExtentHeaderOnDisk) :
    Option SparseExtentHeader :=
  if src.magicNumber ≠ SPARSE_MAGICNUMBER then none
  else if SPARSE_VERSION_INCOMPAT_FLAGS < src.version then none
  else if src.flags &&& (SPARSEFLAG_INCOMPAT_FLAGS
      &&& (0xffffffff ^^^ SPARSEFLAG_COMPRESSED)
      &&& (0xffffffff ^^^ SPARSEFLAG_EMBEDDED_LBA)) ≠ 0 then none
  else if src.flags &&& SPARSEFLAG_VALID_NEWLINE_DETECTOR ≠ 0 ∧
      (src.singleEndLineChar ≠ SPARSE_SINGLE_END_LINE_CHAR ∨
       src.nonEndLineChar ≠ SPARSE_NON_END_LINE_CHAR ∨
       src.doubleEndLineChar1 ≠ SPARSE_DOUBLE_END_LINE_CHAR1 ∨
       src.doubleEndLineChar2 ≠ SPARSE_DOUBLE_END_LINE_CHAR2) then none
  else if src.flags &&& SPARSEFLAG_EMBEDDED_LBA ≠ 0 ∧
      src.flags &&& SPARSEFLAG_COMPRESSED = 0 then none
  else some
    { version := src.version
      flags := src.flags
      compressAlgorithm := src.compressAlgorithm
      uncleanShutdown := src.uncleanShutdown
      reserved := 0
      capacity := src.capacity
      grainSize := src.grainSize
      descriptorOffset := src.descriptorOffset
      descriptorSize := src.descriptorSize
      numGTEsPerGT := src.numGTEsPerGT
      rgdOffset := src.rgdOffset
      gdOffset := src.gdOffset
      overHead := src.overHead }

/-- Translation of `setSparseExtentHeader`: serialize an in-memory header,
with the lowercase (xor `0x20202020`) magic when `temporary`. -/
def setSparseExtentHeader (src : SparseExtentHeader) (temporary : Bool) :
    SparseExtentHeaderOnDisk :=
  { magicNumber :=
      if temporary then SPARSE_MAGICNUMBER ^^^ 0x20202020 else SPARSE_MAGICNUMBER
    version := src.version
    flags := src.flags
    singleEndLineChar := SPARSE_SINGLE_END_LINE_CHAR
    nonEndLineChar := SPARSE_NON_END_LINE_CHAR
    doubleEndLineChar1 := SPARSE_DOUBLE_END_LINE_CHAR1
    doubleEndLineChar2 := SPARSE_DOUBLE_END_LINE_CHAR2
    compressAlgorithm := src.compressAlgorithm
    uncleanShutdown := src.uncleanShutdown
    capacity := src.capacity
    grainSize := src.grainSize
    descriptorOffset := src.descriptorOffset
    descriptorSize := src.descriptorSize
    numGTEsPerGT := src.numGTEsPerGT
    rgdOffset := src.rgdOffset
    gdOffset := src.gdOffset
    overHead := src.overHead }

/-! ## Grain directory/table geometry (`getGDGT`) -/

/-- Geometry part of `SparseGTInfo` (the `gd`/`gt` pointers live in the
writer/reader states). -/
structure SparseGTInfo where
  GTEs : Nat
  GTs : Nat
  GDsectors : Nat
  GTsectors : Nat
  lastGrainNr : Nat
  lastGrainSize : Nat
  deriving Repr, DecidableEq

/-- Translation of `isPow2`: note that `isPow2 0 = true`, exactly as the C
`(val & (val - 1)) == 0` evaluates on `val = 0` (where `val - 1` wraps). -/
def isPow2 (val : Nat) : Bool := val &&& (val - 1) == 0

/-- Translation of `getGDGT` (sparse.c lines 243-278), allocation aside.
`GTs` and the `CEILING` computing it are performed in `uint32_t`/`uint64_t`:
the explicit reductions model those stores.  `calloc` failure (environment) is
not modelled. -/
def getGDGT (hdr : SparseExtentHeader) : Option SparseGTInfo :=
  if hdr.grainSize < 1 ∨ 128 < hdr.grainSize ∨ ¬ isPow2 hdr.grainSize then none
  else if hdr.numGTEsPerGT < VMDK_SECTOR_SIZE / 4 ∨ ¬ isPow2 hdr.numGTEsPerGT then
    none
  else
    let lastGrainNr := hdr.capacity / hdr.grainSize
    let lastGrainSize := (hdr.capacity &&& (hdr.grainSize - 1)) * VMDK_SECTOR_SIZE
    let GTEs := lastGrainNr + (if lastGrainSize ≠ 0 then 1 else 0)
    let GTs := ((GTEs + hdr.numGTEsPerGT - 1) % 2 ^ 64) / hdr.numGTEsPerGT % 2 ^ 32
    let GDsectors := CEILING (GTs * 4) VMDK_SECTOR_SIZE
    let GTsectors := CEILING (hdr.numGTEsPerGT * 4) VMDK_SECTOR_SIZE
    some
      { GTEs := GTEs
        GTs := GTs
        GDsectors := GDsectors
        GTsectors := GTsectors
        lastGrainNr := lastGrainNr
        lastGrainSize := lastGrainSize }

/-- Translation of `prefillGD`: the grain-directory contents (entry `i` points
at grain table `i`) together with the returned next free sector. -/
def prefillGD (gtInfo : SparseGTInfo) (gtBase : Nat) : (Nat → Nat) × Nat :=
  (fun i => if i < gtInfo.GTs then gtBase + i * gtInfo.GTsectors else 0,
   gtBase + gtInfo.GTs * gtInfo.GTsectors)

/-! ## File model -/

/-- Model of the output/input file.  The first sector (the on-disk header,
which the program writes and reads as a whole struct) is kept as a struct
field; all other accesses are byte-addressed.  `size` is the file size in
bytes; reading past it fails (short read). -/
structure VFile where
  hdrSector : Option SparseExtentHeaderOnDisk
  bytes : Nat → Nat
  size : Nat

/-- Byte store holding zero everywhere. -/
def zeroBytes : Nat → Nat := fun _ => 0

/-- Empty file fresh from `open(..., O_CREAT | O_TRUNC)`. -/
def emptyVFile : VFile := { hdrSector := none, bytes := zeroBytes, size := 0 }

/-- Overlay a byte list on a byte store at offset `pos`. -/
def overlayBytes (mem : Nat → Nat) (data : List Nat) (pos : Nat) : Nat → Nat :=
  fun a => if pos ≤ a ∧ a < pos + data.length then data.getD (a - pos) 0 else mem a

/-- Model of a successful `pwrite` of `data` at byte offset `pos`.  A
zero-length write does not extend the file (POSIX). -/
def writeBytes (f : VFile) (data : List Nat) (pos : Nat) : VFile :=
  if data.length = 0 then f
  else
    { f with
      bytes := overlayBytes f.bytes data pos
      size := max f.size (pos + data.length) }

/-- Model of `safePread`: fails unless the whole range is within the file.
A zero-length read succeeds regardless of `pos` (POSIX). -/
def readBytes (f : VFile) (len pos : Nat) : Option (List Nat) :=
  if len = 0 then some []
  else if pos + len ≤ f.size then
    some ((List.range len).map (fun i => f.bytes (pos + i)))
  else none

/-- Model of writing the 512-byte on-disk header struct at offset 0. -/
def writeHeaderSector (f : VFile) (od : SparseExtentHeaderOnDisk) : VFile :=
  { f with hdrSector := some od, size := max f.size 512 }

/-- Model of `read(fd, &onDisk, sizeof onDisk)` at the start of `Sparse_Open`. -/
def readHeaderSector (f : VFile) : Option SparseExtentHeaderOnDisk :=
  if 512 ≤ f.size then f.hdrSector else none

/-! ## Codec model

zlib is an external library; a `Codec` packages what the program relies on:
`inflate` inverts `deflate`, and `deflate`'s output is at most `deflBound` of
the input length (zlib's `deflateBound`), which for one 64 KiB grain fits the
reader's `(grainSize + 1) * 512`-byte scratch together with the 12-byte frame
header. -/
structure Codec where
  deflate : List Nat → List Nat
  inflate : List Nat → List Nat
  deflBound : Nat → Nat
  inflate_deflate : ∀ b, inflate (deflate b) = b
  len_le : ∀ b, (deflate b).length ≤ deflBound b.length
  bound_mono : ∀ m n, m ≤ n → deflBound m ≤ deflBound n
  bound_small : deflBound 65536 + 12 ≤ 66048

/-- Identity codec: a valid `Codec` used for concrete evaluations. -/
def idCodec : Codec :=
  { deflate := id
    inflate := id
    deflBound := id
    inflate_deflate := fun _ => rfl
    len_le := fun _ => Nat.le_refl _
    bound_mono := fun _ _ h => h
    bound_small := by norm_num }

/-! ## Writer state -/

/-- Error kinds; the C functions return `-1`/`false` and print a distinguishing
message, which these constructors mirror (spec section 7). -/
inductive WErr where
  | outOfRange
  | overwriteForbidden
  | codecFailure
  | ioWrite
  deriving Repr, DecidableEq

/-- Translation of `GrainInfo` (buffer bookkeeping only; the zlib scratch is
implicit in the codec model).  `bufferNr = none` models the `~0ULL`
sentinel. -/
structure GrainInfo where
  buffer : Nat → Nat
  bufferNr : Option Nat
  bufferValidStart : Nat
  bufferValidEnd : Nat

/-- Value of `grain->bufferNr` as the C code sees it (`~0ULL` when unset). -/
def bufferNrVal (g : GrainInfo) : Nat := g.bufferNr.getD (2 ^ 64 - 1)

/-- Static writer data fixed at creation: parsed header plus geometry. -/
structure WriterConfig where
  diskHdr : SparseExtentHeader
  gtInfo : SparseGTInfo
  deriving Repr, DecidableEq

/-- Mutable writer state: grain table, sector cursor, current grain, grain
directory contents and the output file. -/
structure WriterState where
  gt : Nat → Nat
  gd : Nat → Nat
  curSP : Nat
  currentGrain : GrainInfo
  file : VFile

/-- Grain size in bytes. -/
def grainBytes (cfg : WriterConfig) : Nat :=
  cfg.diskHdr.grainSize * VMDK_SECTOR_SIZE

/-- Translation of `isZeroed`: the C routine scans `len >> 3` 64-bit words, so
only the first `8 * (len / 8)` bytes are examined. -/
def isZeroed (data : Nat → Nat) (len : Nat) : Bool :=
  (List.range (8 * (len / 8))).all (fun i => data i == 0)

/-- Natural length of a grain: a full grain below `lastGrainNr`,
`lastGrainSize` at it, 0 beyond it (sparse.c lines 359-365). -/
def grainLenBytes (cfg : WriterConfig) (nr : Nat) : Nat :=
  if nr < cfg.gtInfo.lastGrainNr then grainBytes cfg
  else if nr = cfg.gtInfo.lastGrainNr then cfg.gtInfo.lastGrainSize
  else 0

/-- Translation of `fillGrain` (sparse.c lines 346-383): bounds check, early
return when the buffer already covers the natural length, refusal to
read-modify-write a written grain, then zero-filling of both gaps. -/
def fillGrain (cfg : WriterConfig) (gt : Nat → Nat) (grain : GrainInfo) :
    Except WErr GrainInfo :=
  let nr := bufferNrVal grain
  if cfg.gtInfo.GTEs ≤ nr then .error .outOfRange
  else
    let lenBytes := grainLenBytes cfg nr
    if grain.bufferValidStart = 0 ∧ lenBytes ≤ grain.bufferValidEnd then .ok grain
    else if gt nr ≠ 0 then .error .overwriteForbidden
    else
      .ok { grain with
            buffer := fun i =>
              if i < grain.bufferValidStart then 0
              else if grain.bufferValidEnd ≤ i ∧ i < lenBytes then 0
              else grain.buffer i
            bufferValidStart := 0
            bufferValidEnd :=
              if grain.bufferValidEnd < lenBytes then lenBytes
              else grain.bufferValidEnd }

/-- Size of the writer's zlib output buffer (`initGrain`):
`deflateBound(grainBytes) + sizeof(SparseGrainLBAHeaderOnDisk)` rounded up to a
whole sector. -/
def zlibBufferSize (cfg : WriterConfig) (codec : Codec) : Nat :=
  let maxOutSize := codec.deflBound (grainBytes cfg) + 12
  ((maxOutSize + VMDK_SECTOR_SIZE - 1) / VMDK_SECTOR_SIZE) * VMDK_SECTOR_SIZE

/-- Translation of `deflateGrain`: compress `buffer[0, bufferValidEnd)`; fails
if the output does not fit the zlib buffer after the 12-byte frame header. -/
def deflateGrain (cfg : WriterConfig) (codec : Codec) (grain : GrainInfo) :
    Except WErr (List Nat) :=
  let input := (List.range grain.bufferValidEnd).map grain.buffer
  let out := codec.deflate input
  if out.length ≤ zlibBufferSize cfg codec - 12 then .ok out
  else .error .codecFailure

/-- Bytes of one compressed grain frame before padding: 12-byte embedded-LBA
header (`lba`, `cmpSize`) followed by the deflate output. -/
def frameBytes (cfg : WriterConfig) (nr : Nat) (compressed : List Nat) :
    List Nat :=
  le64 (nr * cfg.diskHdr.grainSize) ++ le32 compressed.length ++ compressed

/-- Round a byte count up to a whole number of sectors, as
`writeGrain` does with `rem = dataLen & (VMDK_SECTOR_SIZE - 1)`. -/
def sectorPad (dataLen : Nat) : Nat :=
  let rem := dataLen &&& (VMDK_SECTOR_SIZE - 1)
  if rem = 0 then dataLen else dataLen + (VMDK_SECTOR_SIZE - rem)

/-- Translation of `writeGrain` (sparse.c lines 405-436): set the grain-table
entry to `sp`, emit the frame zero-padded to a sector boundary at `sp * 512`,
and return the padded length. -/
def writeGrain (cfg : WriterConfig) (s : WriterState) (grain : GrainInfo)
    (compressed : List Nat) (sp : Nat) : Except WErr (WriterState × Nat) :=
  let nr := bufferNrVal grain
  if cfg.gtInfo.GTEs ≤ nr then .error .outOfRange
  else
    let dataLen := 12 + compressed.length
    let dataLen2 := sectorPad dataLen
    let frame := frameBytes cfg nr compressed ++
      List.replicate (dataLen2 - dataLen) 0
    .ok
      ({ s with
         gt := fun j => if j = nr then sp else s.gt j
         file := writeBytes s.file frame (sp * VMDK_SECTOR_SIZE) },
       dataLen2)

/-- Translation of `flushGrain` (sparse.c lines 438-484). -/
def flushGrain (cfg : WriterConfig) (codec : Codec) (s : WriterState) :
    Except WErr WriterState :=
  match s.currentGrain.bufferNr with
  | none => .ok s
  | some nr =>
    if s.currentGrain.bufferValidEnd = 0 then .ok s
    else if cfg.gtInfo.GTEs ≤ nr then .error .outOfRange
    else do
      let grain ← fillGrain cfg s.gt s.currentGrain
      let oldLoc := s.gt nr
      if oldLoc ≠ 0 then .error .overwriteForbidden
      else if isZeroed grain.buffer grain.bufferValidEnd then
        .ok { s with currentGrain := grain }
      else do
        let compressed ← deflateGrain cfg codec grain
        let (s2, dataLen) ←
          writeGrain cfg { s with currentGrain := grain } grain compressed s.curSP
        .ok { s2 with
              curSP := (s2.curSP + dataLen / VMDK_SECTOR_SIZE) % 2 ^ 32 }

/-- Translation of `resetGrain`. -/
def resetGrain (grain : GrainInfo) (grainNr : Nat) : GrainInfo :=
  { grain with bufferNr := some grainNr, bufferValidStart := 0, bufferValidEnd := 0 }

/-- Translation of `prepareGrain`: flush and re-target the buffer when moving
to a different grain. -/
def prepareGrain (cfg : WriterConfig) (codec : Codec) (s : WriterState)
    (grainNr : Nat) : Except WErr WriterState :=
  if s.currentGrain.bufferNr = some grainNr then .ok s
  else do
    let s2 ← flushGrain cfg codec s
    .ok { s2 with currentGrain := resetGrain s2.currentGrain grainNr }

/-- Loop body of `StreamOptimizedPwrite` (sparse.c lines 523-556).  `fuel`
bounds the iteration count; each iteration consumes at least one byte of `buf`
whenever `updateStart < grainBytes`, so `fuel = buf.length` never runs out on
the calls made by `StreamOptimizedPwrite`. -/
def pwriteLoop (cfg : WriterConfig) (codec : Codec) : Nat → WriterState →
    List Nat → Nat → Nat → Except WErr WriterState
  | _, s, [], _, _ => .ok s
  | 0, _, _ :: _, _, _ => .error .ioWrite
  | fuel + 1, s, buf@(_ :: _), grainNr, updateStart => do
    let s1 ← prepareGrain cfg codec s grainNr
    let updateLen := min buf.length (grainBytes cfg - updateStart)
    let updateEnd := updateStart + updateLen
    let g := s1.currentGrain
    let s2 ←
      if g.bufferValidEnd = 0 then .ok s1
      else if updateEnd < g.bufferValidStart ∨ g.bufferValidEnd < updateStart then do
        let g2 ← fillGrain cfg s1.gt g
        .ok { s1 with currentGrain := g2 }
      else .ok s1
    let g2 := s2.currentGrain
    let s3 :=
      { s2 with
        currentGrain :=
          { g2 with
            buffer := fun i =>
              if updateStart ≤ i ∧ i < updateEnd then buf.getD (i - updateStart) 0
              else g2.buffer i
            bufferValidStart :=
              if updateStart < g2.bufferValidStart ∨ g2.bufferValidEnd = 0 then
                updateStart
              else g2.bufferValidStart
            bufferValidEnd :=
              if g2.bufferValidEnd < updateEnd then updateEnd
              else g2.bufferValidEnd } }
    pwriteLoop cfg codec fuel s3 (buf.drop updateLen) (grainNr + 1) 0

/-- Translation of `StreamOptimizedPwrite`: on success the C function returns
the number of bytes consumed, which is always the full length. -/
def StreamOptimizedPwrite (cfg : WriterConfig) (codec : Codec)
    (s : WriterState) (buf : List Nat) (pos : Nat) :
    Except WErr (WriterState × Nat) := do
  let grainNr := pos / grainBytes cfg
  let updateStart := pos &&& (grainBytes cfg - 1)
  let s2 ← pwriteLoop cfg codec buf.length s buf grainNr updateStart
  .ok (s2, buf.length)

/-- Projection used to state facts about the returned byte count. -/
def pwriteRet (r : Except WErr (WriterState × Nat)) : Option Nat :=
  match r with
  | .ok (_, n) => some n
  | .error _ => none

/-! ## Writer creation and close -/

/-- The in-memory header as first set up by `StreamOptimized_Create`
(sparse.c lines 920-926), before the layout fields are filled in. -/
def writerHdr0 (c : Nat) : SparseExtentHeader :=
  { version := SPARSE_VERSION_INCOMPAT_FLAGS
    flags := SPARSEFLAG_VALID_NEWLINE_DETECTOR ||| SPARSEFLAG_COMPRESSED |||
      SPARSEFLAG_EMBEDDED_LBA
    compressAlgorithm := SPARSE_COMPRESSALGORITHM_DEFLATE
    uncleanShutdown := 0
    reserved := 0
    capacity := CEILING c VMDK_SECTOR_SIZE
    grainSize := 128
    descriptorOffset := 0
    descriptorSize := 0
    numGTEsPerGT := 512
    rgdOffset := 0
    gdOffset := 0
    overHead := 1 }

/-- Translation of `StreamOptimized_Create` (sparse.c lines 905-961),
allocation and descriptor-file naming aside.  `capacity` is in bytes; `g` is
the (uninitialized, hence arbitrary) content of the freshly allocated grain
buffer.  `curSP = overHead` is a `uint32_t` store. -/
def StreamOptimized_Create (capacity : Nat) (g : Nat → Nat) :
    Option (WriterConfig × WriterState) := do
  let hdr0 : SparseExtentHeader := writerHdr0 capacity
  let gtInfo ← getGDGT hdr0
  let descriptorOffset := hdr0.overHead
  let descriptorSize := 20
  let overHead1 := hdr0.overHead + descriptorSize
  let gdOffset := overHead1
  let overHead2 := overHead1 + gtInfo.GDsectors
  let (gd, overHead3) := prefillGD gtInfo overHead2
  let hdr :=
    { hdr0 with
      descriptorOffset := descriptorOffset
      descriptorSize := descriptorSize
      gdOffset := gdOffset
      overHead := overHead3 }
  some
    ({ diskHdr := hdr, gtInfo := gtInfo },
     { gt := fun _ => 0
       gd := gd
       curSP := overHead3 % 2 ^ 32
       currentGrain :=
         { buffer := g, bufferNr := none, bufferValidStart := 0, bufferValidEnd := 0 }
       file := emptyVFile })

/-- Translation of `writeSpecial`: one zeroed sector carrying `lba = length`
and `type = marker` (little-endian), written at `curSP * 512`.  The layout of
`SparseSpecialLBAHeaderOnDisk` (`lba` at offset 0, `type` at offset 8) is
modelled from the spec. -/
def writeSpecial (file : VFile) (curSP marker length : Nat) : VFile :=
  let sector := le64 length ++ le32 marker ++ List.replicate 500 0
  writeBytes file sector (curSP * VMDK_SECTOR_SIZE)

/-- Translation of `writeEOS`. -/
def writeEOS (file : VFile) (curSP : Nat) : VFile :=
  writeSpecial file curSP GRAIN_MARKER_EOS 0

/-- The bytes of the in-memory grain directory + grain tables block, as written
by `StreamOptimizedClose`: `GDsectors` sectors of directory entries (zero
padded) followed by `GTs` tables of `GTsectors` sectors each. -/
def gdgtBytes (cfg : WriterConfig) (gd gt : Nat → Nat) : List Nat :=
  (((List.range (cfg.gtInfo.GDsectors * 128)).map gd).map le32).flatten ++
  (((List.range (cfg.gtInfo.GTs * cfg.gtInfo.GTsectors * 128)).map gt).map le32).flatten

/-- Success/failure of each i/o step of `StreamOptimizedClose` that depends on
the environment.  `eosOk` is the end-of-stream marker `pwrite`, whose result
the source ignores. -/
structure CloseOracle where
  eosOk : Bool
  gdOk : Bool
  descOk : Bool
  hdr1Ok : Bool
  sync1Ok : Bool
  hdr2Ok : Bool
  sync2Ok : Bool
  finOk : Bool
  deriving Repr, DecidableEq

/-- Oracle where every i/o step succeeds. -/
def allOk : CloseOracle :=
  { eosOk := true, gdOk := true, descOk := true, hdr1Ok := true,
    sync1Ok := true, hdr2Ok := true, sync2Ok := true, finOk := true }

/-- Translation of `StreamOptimizedClose` (sparse.c lines 841-896).
`descBytes` is the descriptor text produced by `makeDiskDescriptorFile` (whose
random CID content is irrelevant to the claims; its length is bounded by the
template size).  Note that the result of `writeEOS` is ignored by the source:
on `eosOk = false` the marker is simply not written and the close continues. -/
def StreamOptimizedClose (cfg : WriterConfig) (codec : Codec)
    (s : WriterState) (descBytes : List Nat) (o : CloseOracle) :
    Except WErr VFile := do
  let s1 ← flushGrain cfg codec s
  let f1 := if o.eosOk then writeEOS s1.file s1.curSP else s1.file
  if ¬ o.gdOk then .error .ioWrite
  else
    let f2 := writeBytes f1 (gdgtBytes cfg s1.gd s1.gt)
      (cfg.diskHdr.gdOffset * VMDK_SECTOR_SIZE)
    if ¬ o.descOk then .error .ioWrite
    else
      let f3 := writeBytes f2 descBytes
        (cfg.diskHdr.descriptorOffset * VMDK_SECTOR_SIZE)
      if ¬ o.hdr1Ok then .error .ioWrite
      else
        let f4 := writeHeaderSector f3 (setSparseExtentHeader cfg.diskHdr true)
        if ¬ o.sync1Ok then .error .ioWrite
        else if ¬ o.hdr2Ok then .error .ioWrite
        else
          let f5 := writeHeaderSector f4 (setSparseExtentHeader cfg.diskHdr false)
          if ¬ o.sync2Ok then .error .ioWrite
          else if ¬ o.finOk then .error .ioWrite
          else .ok f5

/-! ## Reader -/

/-- Reader error kinds (spec section 7); the C functions return `-1` and set
`errno`/print a message. -/
inductive RErr where
  | ioRead
  | frameCorrupt
  | codecFailure
  | noMoreData
  deriving Repr, DecidableEq

/-- Translation of `SparseDiskInfo`: parsed header, geometry, loaded grain
table and the input file. -/
structure SparseDiskInfo where
  diskHdr : SparseExtentHeader
  gtInfo : SparseGTInfo
  gt : Nat → Nat
  file : VFile

/-- Grain size in bytes, reader side. -/
def rGrainBytes (sdi : SparseDiskInfo) : Nat :=
  sdi.diskHdr.grainSize * VMDK_SECTOR_SIZE

/-- Translation of `SparseGetCapacity`. -/
def SparseGetCapacity (sdi : SparseDiskInfo) : Nat :=
  sdi.diskHdr.capacity * VMDK_SECTOR_SIZE

/-- Translation of the `CoalescedPreader` state: a pending read of `len` bytes
at file offset `pos`, destined for offset `dst` of the grain-table byte area
(standing for the destination pointer). -/
structure CoalescedPreader where
  pos : Nat
  dst : Nat
  len : Nat
  deriving Repr, DecidableEq

/-- Translation of `CoalescedPreaderExec`: issue the pending read, overlaying
the bytes into `mem` at the recorded destination. -/
def CoalescedPreaderExec (file : VFile) (mem : Nat → Nat)
    (p : CoalescedPreader) : Option (Nat → Nat) :=
  if p.len = 0 then some mem
  else
    match readBytes file p.len p.pos with
    | none => none
    | some data => some (overlayBytes mem data p.dst)

/-- Translation of `CoalescedPreaderPread`: extend the pending read when the
new request is exactly adjacent (in both file offset and destination),
otherwise execute the pending read and install the new one. -/
def CoalescedPreaderPread (file : VFile) (mem : Nat → Nat)
    (p : CoalescedPreader) (dst len pos : Nat) :
    Option ((Nat → Nat) × CoalescedPreader) :=
  if len ≠ 0 then
    if p.pos + p.len = pos ∧ dst = p.dst + p.len then
      some (mem, { p with len := p.len + len })
    else
      match CoalescedPreaderExec file mem p with
      | none => none
      | some mem2 => some (mem2, { pos := pos, dst := dst, len := len })
  else some (mem, { pos := pos, dst := dst, len := len })

/-- Grain-table loading loop of `Sparse_Open` (sparse.c lines 1222-1231):
`count` tables starting at directory index `i`. -/
def openTables (file : VFile) (gd : Nat → Nat) (GTsectors nGT : Nat) :
    Nat → Nat → (Nat → Nat) → CoalescedPreader →
    Option ((Nat → Nat) × CoalescedPreader)
  | _, 0, mem, cp => some (mem, cp)
  | i, count + 1, mem, cp =>
    let loc := gd i
    if loc ≠ 0 then
      match CoalescedPreaderPread file mem cp (i * nGT * 4)
        (GTsectors * VMDK_SECTOR_SIZE) (loc * VMDK_SECTOR_SIZE) with
      | none => none
      | some (mem2, cp2) => openTables file gd GTsectors nGT (i + 1) count mem2 cp2
    else openTables file gd GTsectors nGT (i + 1) count mem cp

/-- Translation of `Sparse_Open` (sparse.c lines 1184-1244): read and validate
the header, compute the geometry, read the grain directory, then read every
present grain table through the coalesced preader. -/
def Sparse_Open (file : VFile) : Option SparseDiskInfo := do
  let onDisk ← readHeaderSector file
  if ¬ checkSparseExtentHeader onDisk then none
  else do
    let diskHdr ← getSparseExtentHeader onDisk
    let gtInfo ← getGDGT diskHdr
    let gdData ← readBytes file (gtInfo.GDsectors * VMDK_SECTOR_SIZE)
      (diskHdr.gdOffset * VMDK_SECTOR_SIZE)
    let gd := fun i => le32At gdData i
    let (mem, cp) ← openTables file gd gtInfo.GTsectors diskHdr.numGTEsPerGT 0
      gtInfo.GTs zeroBytes { pos := 0, dst := 0, len := 0 }
    let mem2 ← CoalescedPreaderExec file mem cp
    some
      { diskHdr := diskHdr
        gtInfo := gtInfo
        gt := fun j => entry32 mem2 j
        file := file }

/-- Loop of `SparseNextData` (sparse.c lines 1038-1051).  The C loop variable
`grainNr` is a `uint32_t`; the recursion models it without the wrap (see the
header comment), terminating on `GTEs - grainNr`. -/
def nextDataLoop (gt : Nat → Nat) (gtInfo : SparseGTInfo) (gB : Nat) :
    Nat → Nat → Nat → Bool → Except RErr (Nat × Nat)
  | grainNr, skip, pos, want =>
    if h : grainNr < gtInfo.GTEs then
      let empty := gt grainNr == 0
      if empty = want then
        if want then .ok (pos, grainNr * gB)
        else nextDataLoop gt gtInfo gB (grainNr + 1) 0 (grainNr * gB ||| skip) true
      else nextDataLoop gt gtInfo gB (grainNr + 1) 0 pos want
    else if want then
      .ok (pos, gtInfo.lastGrainNr * gB + gtInfo.lastGrainSize)
    else .error .noMoreData
  termination_by grainNr => gtInfo.GTEs - grainNr

/-- Translation of `SparseNextData`: `p` is the incoming `*end`; on success the
pair is the new `(*pos, *end)`.  The initial `grainNr = p / grainBytes` is a
`uint32_t` store. -/
def SparseNextData (sdi : SparseDiskInfo) (p : Nat) : Except RErr (Nat × Nat) :=
  let gB := rGrainBytes sdi
  let grainNr := p / gB % 2 ^ 32
  let skip := p &&& (gB - 1)
  nextDataLoop sdi.gt sdi.gtInfo gB grainNr skip 0 false

/-- Effective size of a grain on the reader side (sparse.c lines 1083-1089):
a full grain below `lastGrainNr`, `lastGrainSize` at it, 0 beyond. -/
def rGrainLen (sdi : SparseDiskInfo) (grainNr : Nat) : Nat :=
  if grainNr < sdi.gtInfo.lastGrainNr then rGrainBytes sdi
  else if grainNr = sdi.gtInfo.lastGrainNr then sdi.gtInfo.lastGrainSize
  else 0

/-- One iteration body of the `SparsePread` loop (sparse.c lines 1090-1152):
read `readLen` bytes of grain `grainNr` starting `readSkip` bytes in.  Factored
out of `preadLoop` so the recursion itself stays small.  `inflate` failure on a
malformed stream is modelled only through the explicit size checks. -/
def preadGrain (sdi : SparseDiskInfo) (codec : Codec)
    (grainNr readSkip readLen : Nat) : Except RErr (List Nat) :=
  let gB := rGrainBytes sdi
  let sect := sdi.gt grainNr
  if sect = 0 then .ok (List.replicate readLen 0)
  else if sect = 1 then .ok (List.replicate readLen 0)
  else if sdi.diskHdr.flags &&& SPARSEFLAG_COMPRESSED ≠ 0 then
    (match readBytes sdi.file VMDK_SECTOR_SIZE
        (sect * VMDK_SECTOR_SIZE) with
      | none => .error RErr.ioRead
      | some l => .ok l) >>= fun r1 =>
    (if sdi.diskHdr.flags &&& SPARSEFLAG_EMBEDDED_LBA ≠ 0 then
        if decodeLE (r1.take 8) ≠ grainNr * sdi.diskHdr.grainSize then
          .error RErr.frameCorrupt
        else .ok (12, decodeLE ((r1.drop 8).take 4))
      else .ok (4, decodeLE (r1.take 4))) >>= fun hc =>
    let hdrlen := hc.1
    let cmpSize := hc.2
    if (sdi.diskHdr.grainSize + 1) * VMDK_SECTOR_SIZE - hdrlen < cmpSize then
      .error RErr.frameCorrupt
    else
      (if VMDK_SECTOR_SIZE < cmpSize + hdrlen then
          let remaining := (cmpSize + hdrlen - VMDK_SECTOR_SIZE +
            VMDK_SECTOR_SIZE - 1) / VMDK_SECTOR_SIZE * VMDK_SECTOR_SIZE
          match readBytes sdi.file remaining
            ((sect + 1) * VMDK_SECTOR_SIZE) with
          | none => .error RErr.ioRead
          | some r2 => .ok (r1 ++ r2)
        else .ok r1) >>= fun readBuf =>
      let out := codec.inflate ((readBuf.drop hdrlen).take cmpSize)
      if gB < out.length then .error RErr.codecFailure
      else if gB - (gB - out.length) < rGrainLen sdi grainNr then
        .error RErr.codecFailure
      else .ok ((out.drop readSkip).take readLen)
  else
    match readBytes sdi.file readLen
      (sect * VMDK_SECTOR_SIZE + readSkip) with
    | none => .error RErr.ioRead
    | some l => .ok l

/-- Loop of `SparsePread` (sparse.c lines 1078-1159), one recursive step per
grain touched.  Returns the bytes read; the C function returns their count and
stores them through `buf`.  The in-loop `grainNr++` is modelled without the
`uint32_t` wrap (see the header comment); the initial value is reduced by the
wrapper. -/
def preadLoop (sdi : SparseDiskInfo) (codec : Codec)
    (len grainNr readSkip : Nat) : Except RErr (List Nat) :=
  if hlen : len = 0 then .ok []
  else if hbrk : rGrainLen sdi grainNr ≤ readSkip then .ok []
  else
    let readLen := min len (rGrainLen sdi grainNr - readSkip)
    do
      let bytes ← preadGrain sdi codec grainNr readSkip readLen
      let rest ← preadLoop sdi codec (len - readLen) (grainNr + 1) 0
      .ok (bytes ++ rest)
  termination_by len
  decreasing_by omega

/-- Translation of `SparsePread`: the initial `grainNr = pos / grainBytes` is a
`uint32_t` store; `readSkip = pos & (grainBytes - 1)`. -/
def SparsePread (sdi : SparseDiskInfo) (codec : Codec) (len pos : Nat) :
    Except RErr (List Nat) :=
  let gB := rGrainBytes sdi
  preadLoop sdi codec len (pos / gB % 2 ^ 32) (pos &&& (gB - 1))

/-! ## Helper lemmas: powers of two and bit masks -/

lemma isPow2_char (v : Nat) (h1 : 1 ≤ v) (h2 : v ≤ 128) (h3 : isPow2 v = true) :
    v = 1 ∨ v = 2 ∨ v = 4 ∨ v = 8 ∨ v = 16 ∨ v = 32 ∨ v = 64 ∨ v = 128 := by
  interval_cases v <;> revert h3 <;> decide

lemma isPow2_exists (v : Nat) (h1 : 1 ≤ v) (h2 : v ≤ 128) (h3 : isPow2 v = true) :
    ∃ k, k ≤ 7 ∧ v = 2 ^ k := by
  rcases isPow2_char v h1 h2 h3 with h | h | h | h | h | h | h | h <;> subst h
  exacts [⟨0, by omega, rfl⟩, ⟨1, by omega, rfl⟩, ⟨2, by omega, rfl⟩,
    ⟨3, by omega, rfl⟩, ⟨4, by omega, rfl⟩, ⟨5, by omega, rfl⟩,
    ⟨6, by omega, rfl⟩, ⟨7, by omega, rfl⟩]

lemma and_pred_pow2_eq_mod (c v : Nat) (h1 : 1 ≤ v) (h2 : v ≤ 128)
    (h3 : isPow2 v = true) : c &&& (v - 1) = c % v := by
  obtain ⟨k, -, rfl⟩ := isPow2_exists v h1 h2 h3
  exact Nat.and_pow_two_sub_one_eq_mod c k

/-- The incompat-bits mask used by `getSparseExtentHeader`, evaluated. -/
lemma incompatMask_eq :
    (SPARSEFLAG_INCOMPAT_FLAGS &&& (0xffffffff ^^^ SPARSEFLAG_COMPRESSED)
      &&& (0xffffffff ^^^ SPARSEFLAG_EMBEDDED_LBA) : Nat) = 0xfffc0000 := by
  decide

lemma incompatMask_testBit (i : Nat) :
    (0xfffc0000 : Nat).testBit i =
      (SPARSEFLAG_INCOMPAT_FLAGS.testBit i &&
       !SPARSEFLAG_COMPRESSED.testBit i &&
       !SPARSEFLAG_EMBEDDED_LBA.testBit i) := by
  rcases Nat.lt_or_ge i 32 with h | h
  · interval_cases i <;> decide
  · have b1 : (0xfffc0000 : Nat).testBit i = false :=
      Nat.testBit_eq_false_of_lt
        (lt_of_lt_of_le (by norm_num) (Nat.pow_le_pow_right (by norm_num) h))
    have b2 : (SPARSEFLAG_INCOMPAT_FLAGS : Nat).testBit i = false :=
      Nat.testBit_eq_false_of_lt
        (lt_of_lt_of_le (by norm_num [SPARSEFLAG_INCOMPAT_FLAGS])
          (Nat.pow_le_pow_right (by norm_num) h))
    simp [b1, b2]

/-- A masked-flags test is the same as the existence of a set incompat bit
that is neither the COMPRESSED bit nor the EMBEDDED_LBA bit. -/
lemma incompat_cond_iff (flags : Nat) :
    flags &&& (SPARSEFLAG_INCOMPAT_FLAGS &&& (0xffffffff ^^^ SPARSEFLAG_COMPRESSED)
      &&& (0xffffffff ^^^ SPARSEFLAG_EMBEDDED_LBA)) ≠ 0 ↔
    ∃ i < 32, SPARSEFLAG_INCOMPAT_FLAGS.testBit i = true ∧
      SPARSEFLAG_COMPRESSED.testBit i = false ∧
      SPARSEFLAG_EMBEDDED_LBA.testBit i = false ∧ flags.testBit i = true := by
  rw [incompatMask_eq]
  constructor
  · intro h
    obtain ⟨i, hi⟩ := Nat.ne_zero_implies_bit_true h
    rw [Nat.testBit_land, incompatMask_testBit] at hi
    have hlt : i < 32 := by
      by_contra hge
      have h32 : (32 : Nat) ≤ i := Nat.le_of_not_lt hge
      have hb : (SPARSEFLAG_INCOMPAT_FLAGS : Nat).testBit i = false :=
        Nat.testBit_eq_false_of_lt
          (lt_of_lt_of_le
            (show (SPARSEFLAG_INCOMPAT_FLAGS : Nat) < 2 ^ 32 by
              norm_num [SPARSEFLAG_INCOMPAT_FLAGS])
            (Nat.pow_le_pow_right (by norm_num) h32))
      simp [hb] at hi
    refine ⟨i, hlt, ?_, ?_, ?_, ?_⟩ <;>
      simp only [Bool.and_eq_true, Bool.not_eq_true'] at hi <;> tauto
  · rintro ⟨i, -, h1, h2, h3, h4⟩
    intro h0
    have hc := congrArg (fun n => Nat.testBit n i) h0
    simp only [Nat.testBit_land, incompatMask_testBit, Nat.zero_testBit,
      h1, h2, h3, h4] at hc
    simp at hc

/-! ## C4: header parsing -/

/-- Failure condition on an on-disk header, following the claim: wrong magic,
version beyond the supported maximum, an incompat flag bit other than
COMPRESSED and EMBEDDED_LBA set, a declared-valid newline detector with a wrong
detector byte, or EMBEDDED_LBA without COMPRESSED. -/
def headerParseFails (od : SparseExtentHeaderOnDisk) : Prop :=
  od.magicNumber ≠ SPARSE_MAGICNUMBER ∨
  SPARSE_VERSION_INCOMPAT_FLAGS < od.version ∨
  (∃ i < 32, SPARSEFLAG_INCOMPAT_FLAGS.testBit i = true ∧
    SPARSEFLAG_COMPRESSED.testBit i = false ∧
    SPARSEFLAG_EMBEDDED_LBA.testBit i = false ∧ od.flags.testBit i = true) ∨
  (od.flags &&& SPARSEFLAG_VALID_NEWLINE_DETECTOR ≠ 0 ∧
    (od.singleEndLineChar ≠ SPARSE_SINGLE_END_LINE_CHAR ∨
     od.nonEndLineChar ≠ SPARSE_NON_END_LINE_CHAR ∨
     od.doubleEndLineChar1 ≠ SPARSE_DOUBLE_END_LINE_CHAR1 ∨
     od.doubleEndLineChar2 ≠ SPARSE_DOUBLE_END_LINE_CHAR2)) ∨
  (od.flags &&& SPARSEFLAG_EMBEDDED_LBA ≠ 0 ∧
    od.flags &&& SPARSEFLAG_COMPRESSED = 0)

instance (od : SparseExtentHeaderOnDisk) : Decidable (headerParseFails od) := by
  unfold headerParseFails; infer_instance

/-- C4: parsing a 512-byte on-disk header fails exactly when the magic number
differs from the signature, the version exceeds the known maximum, an incompat
flag bit other than COMPRESSED and EMBEDDED_LBA is set, the newline detector is
declared valid but one of the four detector bytes is wrong, or EMBEDDED_LBA is
set without COMPRESSED; otherwise it succeeds and populates every field with
the decoded value. -/
theorem C4_header_parse (od : SparseExtentHeaderOnDisk) :
    (getSparseExtentHeader od = none ↔ headerParseFails od) ∧
    (¬ headerParseFails od →
      getSparseExtentHeader od = some
        { version := od.version
          flags := od.flags
          compressAlgorithm := od.compressAlgorithm
          uncleanShutdown := od.uncleanShutdown
          reserved := 0
          capacity := od.capacity
          grainSize := od.grainSize
          descriptorOffset := od.descriptorOffset
          descriptorSize := od.descriptorSize
          numGTEsPerGT := od.numGTEsPerGT
          rgdOffset := od.rgdOffset
          gdOffset := od.gdOffset
          overHead := od.overHead }) := by
  unfold getSparseExtentHeader headerParseFails
  split_ifs with h1 h2 h3 h4 h5
  · exact ⟨iff_of_true rfl (Or.inl h1), fun hn => absurd (Or.inl h1) hn⟩
  · exact ⟨iff_of_true rfl (Or.inr (Or.inl h2)),
      fun hn => absurd (Or.inr (Or.inl h2)) hn⟩
  · have := (incompat_cond_iff od.flags).mp h3
    exact ⟨iff_of_true rfl (Or.inr (Or.inr (Or.inl this))),
      fun hn => absurd (Or.inr (Or.inr (Or.inl this))) hn⟩
  · exact ⟨iff_of_true rfl (Or.inr (Or.inr (Or.inr (Or.inl h4)))),
      fun hn => absurd (Or.inr (Or.inr (Or.inr (Or.inl h4)))) hn⟩
  · exact ⟨iff_of_true rfl (Or.inr (Or.inr (Or.inr (Or.inr h5)))),
      fun hn => absurd (Or.inr (Or.inr (Or.inr (Or.inr h5)))) hn⟩
  · refine ⟨iff_of_false (by simp) ?_, fun _ => rfl⟩
    intro hP
    rcases hP with h | h | h | h | h
    · exact h1 h
    · exact h2 h
    · exact h3 ((incompat_cond_iff od.flags).mpr h)
    · exact h4 h
    · exact h5 h

/-- Witness for C4 at a concrete well-formed header. -/
theorem C4_header_parse_witness :
    ¬ headerParseFails
      { magicNumber := SPARSE_MAGICNUMBER, version := 3, flags := 0x30001
        singleEndLineChar := 10, nonEndLineChar := 32, doubleEndLineChar1 := 13
        doubleEndLineChar2 := 10, compressAlgorithm := 1, uncleanShutdown := 0
        capacity := 192, grainSize := 128, descriptorOffset := 1
        descriptorSize := 20, numGTEsPerGT := 512, rgdOffset := 0
        gdOffset := 21, overHead := 26 } ∧
    getSparseExtentHeader
      { magicNumber := SPARSE_MAGICNUMBER, version := 3, flags := 0x30001
        singleEndLineChar := 10, nonEndLineChar := 32, doubleEndLineChar1 := 13
        doubleEndLineChar2 := 10, compressAlgorithm := 1, uncleanShutdown := 0
        capacity := 192, grainSize := 128, descriptorOffset := 1
        descriptorSize := 20, numGTEsPerGT := 512, rgdOffset := 0
        gdOffset := 21, overHead := 26 } = some
      { version := 3, flags := 0x30001, compressAlgorithm := 1
        uncleanShutdown := 0, reserved := 0, capacity := 192, grainSize := 128
        descriptorOffset := 1, descriptorSize := 20, numGTEsPerGT := 512
        rgdOffset := 0, gdOffset := 21, overHead := 26 } := by
  refine ⟨by decide, ?_⟩
  exact (C4_header_parse _).2 (by decide)

/-! ## C5: layout computation -/

/-- C5 (amended): under the geometry constraints, and provided the `uint64_t`
ceiling computation does not wrap and its result fits the `uint32_t` field
`GTs` (both automatic below 128 PiB), `getGDGT` yields exactly the claimed
layout values; any header violating the geometry constraints is rejected. -/
theorem C5_getGDGT_layout :
    (∀ hdr : SparseExtentHeader,
      1 ≤ hdr.grainSize → hdr.grainSize ≤ 128 → isPow2 hdr.grainSize = true →
      128 ≤ hdr.numGTEsPerGT → isPow2 hdr.numGTEsPerGT = true →
      (hdr.capacity / hdr.grainSize +
          (if hdr.capacity % hdr.grainSize * VMDK_SECTOR_SIZE ≠ 0 then 1 else 0)) +
        hdr.numGTEsPerGT - 1 < 2 ^ 64 →
      CEILING (hdr.capacity / hdr.grainSize +
          (if hdr.capacity % hdr.grainSize * VMDK_SECTOR_SIZE ≠ 0 then 1 else 0))
        hdr.numGTEsPerGT < 2 ^ 32 →
      getGDGT hdr = some
        { GTEs := hdr.capacity / hdr.grainSize +
            (if hdr.capacity % hdr.grainSize * VMDK_SECTOR_SIZE ≠ 0 then 1 else 0)
          GTs := CEILING (hdr.capacity / hdr.grainSize +
            (if hdr.capacity % hdr.grainSize * VMDK_SECTOR_SIZE ≠ 0 then 1 else 0))
            hdr.numGTEsPerGT
          GDsectors := CEILING (CEILING (hdr.capacity / hdr.grainSize +
            (if hdr.capacity % hdr.grainSize * VMDK_SECTOR_SIZE ≠ 0 then 1 else 0))
            hdr.numGTEsPerGT * 4) VMDK_SECTOR_SIZE
          GTsectors := CEILING (hdr.numGTEsPerGT * 4) VMDK_SECTOR_SIZE
          lastGrainNr := hdr.capacity / hdr.grainSize
          lastGrainSize := hdr.capacity % hdr.grainSize * VMDK_SECTOR_SIZE }) ∧
    (∀ hdr : SparseExtentHeader,
      ¬ (1 ≤ hdr.grainSize ∧ hdr.grainSize ≤ 128 ∧ isPow2 hdr.grainSize = true ∧
         128 ≤ hdr.numGTEsPerGT ∧ isPow2 hdr.numGTEsPerGT = true) →
      getGDGT hdr = none) := by
  constructor
  · intro hdr h1 h2 h3 h4 h5 hov htr
    have e1 : hdr.capacity &&& (hdr.grainSize - 1) = hdr.capacity % hdr.grainSize :=
      and_pred_pow2_eq_mod hdr.capacity hdr.grainSize h1 h2 h3
    unfold getGDGT
    rw [if_neg (by push_neg; exact ⟨h1, h2, by simp [h3]⟩),
        if_neg (by push_neg; constructor
                   · unfold VMDK_SECTOR_SIZE; omega
                   · simp [h5])]
    simp only [e1]
    have e2 : (hdr.capacity / hdr.grainSize +
        (if hdr.capacity % hdr.grainSize * VMDK_SECTOR_SIZE ≠ 0 then 1 else 0) +
        hdr.numGTEsPerGT - 1) % 2 ^ 64 =
        hdr.capacity / hdr.grainSize +
        (if hdr.capacity % hdr.grainSize * VMDK_SECTOR_SIZE ≠ 0 then 1 else 0) +
        hdr.numGTEsPerGT - 1 := Nat.mod_eq_of_lt hov
    have e3 : (hdr.capacity / hdr.grainSize +
        (if hdr.capacity % hdr.grainSize * VMDK_SECTOR_SIZE ≠ 0 then 1 else 0) +
        hdr.numGTEsPerGT - 1) / hdr.numGTEsPerGT % 2 ^ 32 =
        CEILING (hdr.capacity / hdr.grainSize +
        (if hdr.capacity % hdr.grainSize * VMDK_SECTOR_SIZE ≠ 0 then 1 else 0))
        hdr.numGTEsPerGT := by
      unfold CEILING
      exact Nat.mod_eq_of_lt htr
    simp only [Option.some.injEq, SparseGTInfo.mk.injEq, e2, e3]
  · intro hdr hbad
    unfold getGDGT
    by_cases c1 : hdr.grainSize < 1 ∨ 128 < hdr.grainSize ∨ ¬ isPow2 hdr.grainSize
    · rw [if_pos c1]
    · rw [if_neg c1]
      push_neg at c1
      obtain ⟨d1, d2, d3⟩ := c1
      rw [if_pos ?_]
      by_contra c2
      push_neg at c2
      obtain ⟨d4, d5⟩ := c2
      exact hbad ⟨d1, d2, by simpa using d3, by
        unfold VMDK_SECTOR_SIZE at d4; omega, by simpa using d5⟩

/-- C5 counterexample input: capacity `2^62` sectors, one-sector grains,
128 grain-table entries per table. -/
def hdrC5 : SparseExtentHeader :=
  { version := 3, flags := 0, compressAlgorithm := 0, uncleanShutdown := 0
    reserved := 0, capacity := 2 ^ 62, grainSize := 1, descriptorOffset := 0
    descriptorSize := 0, numGTEsPerGT := 128, rgdOffset := 0, gdOffset := 0
    overHead := 0 }

/-- C5 counterexample: on a geometry-valid header with capacity `2^62`
sectors, the stored `GTs` is the `uint32_t` truncation `0`, not the claimed
`ceil(GTEs / numGTEsPerGT) = 2^55`. -/
theorem C5_counterexample :
    (getGDGT hdrC5).map SparseGTInfo.GTs ≠ some (CEILING (2 ^ 62) 128) := by
  decide

/-- Witness for C5 at a capacity of 192 sectors. -/
theorem C5_getGDGT_layout_witness :
    getGDGT
      { version := 3, flags := 0x30001, compressAlgorithm := 1
        uncleanShutdown := 0, reserved := 0, capacity := 192, grainSize := 128
        descriptorOffset := 1, descriptorSize := 20, numGTEsPerGT := 512
        rgdOffset := 0, gdOffset := 21, overHead := 26 } = some
      { GTEs := 2, GTs := 1, GDsectors := 1, GTsectors := 4, lastGrainNr := 1
        lastGrainSize := 32768 } :=
  C5_getGDGT_layout.1 _ (by decide) (by decide) (by decide) (by decide)
    (by decide) (by decide) (by decide)

/-! ## Flush/fill characterization lemmas -/

lemma bind_ok_eq {ε α β : Type} (x : α) (f : α → Except ε β) :
    (Except.ok x >>= f : Except ε β) = f x := rfl

lemma bind_error_eq {ε α β : Type} (e : ε) (f : α → Except ε β) :
    (Except.error e >>= f : Except ε β) = Except.error e := rfl

lemma fillGrain_written (cfg : WriterConfig) (gt : Nat → Nat)
    (grain : GrainInfo) (nr : Nat) (hnr : grain.bufferNr = some nr)
    (hlt : nr < cfg.gtInfo.GTEs) (hgt : gt nr ≠ 0) :
    fillGrain cfg gt grain =
      if grain.bufferValidStart = 0 ∧
          grainLenBytes cfg nr ≤ grain.bufferValidEnd then .ok grain
      else .error .overwriteForbidden := by
  unfold fillGrain bufferNrVal
  rw [hnr]
  simp only [Option.getD_some]
  rw [if_neg (show ¬ cfg.gtInfo.GTEs ≤ nr by omega)]
  split_ifs with h <;> rfl

lemma flushGrain_bufferNr_none (cfg : WriterConfig) (codec : Codec)
    (s : WriterState) (h : s.currentGrain.bufferNr = none) :
    flushGrain cfg codec s = .ok s := by
  simp only [flushGrain, h]

lemma flushGrain_validEnd_zero (cfg : WriterConfig) (codec : Codec)
    (s : WriterState) (nr : Nat) (hnr : s.currentGrain.bufferNr = some nr)
    (h : s.currentGrain.bufferValidEnd = 0) :
    flushGrain cfg codec s = .ok s := by
  simp only [flushGrain, hnr]
  rw [if_pos h]

lemma flushGrain_written (cfg : WriterConfig) (codec : Codec)
    (s : WriterState) (nr : Nat) (hnr : s.currentGrain.bufferNr = some nr)
    (hlt : nr < cfg.gtInfo.GTEs) (hgt : s.gt nr ≠ 0)
    (hvE : s.currentGrain.bufferValidEnd ≠ 0) :
    flushGrain cfg codec s = .error .overwriteForbidden := by
  simp only [flushGrain, hnr]
  rw [if_neg hvE, if_neg (show ¬ cfg.gtInfo.GTEs ≤ nr by omega)]
  rw [fillGrain_written cfg s.gt s.currentGrain nr hnr hlt hgt]
  split_ifs with h
  · rw [bind_ok_eq]
  · rw [bind_error_eq]

/-- Result of a successful `fillGrain` on an unwritten grain. -/
def fillResult (cfg : WriterConfig) (grain : GrainInfo) (nr : Nat) : GrainInfo :=
  if grain.bufferValidStart = 0 ∧ grainLenBytes cfg nr ≤ grain.bufferValidEnd then
    grain
  else
    { grain with
      buffer := fun i =>
        if i < grain.bufferValidStart then 0
        else if grain.bufferValidEnd ≤ i ∧ i < grainLenBytes cfg nr then 0
        else grain.buffer i
      bufferValidStart := 0
      bufferValidEnd :=
        if grain.bufferValidEnd < grainLenBytes cfg nr then grainLenBytes cfg nr
        else grain.bufferValidEnd }

lemma fillGrain_unwritten (cfg : WriterConfig) (gt : Nat → Nat)
    (grain : GrainInfo) (nr : Nat) (hnr : grain.bufferNr = some nr)
    (hlt : nr < cfg.gtInfo.GTEs) (hgt0 : gt nr = 0) :
    fillGrain cfg gt grain = .ok (fillResult cfg grain nr) := by
  unfold fillGrain bufferNrVal fillResult
  rw [hnr]
  simp only [Option.getD_some]
  rw [if_neg (show ¬ cfg.gtInfo.GTEs ≤ nr by omega)]
  split_ifs <;> first | rfl | omega

lemma flushGrain_out_of_range (cfg : WriterConfig) (codec : Codec)
    (s : WriterState) (nr : Nat) (hnr : s.currentGrain.bufferNr = some nr)
    (hvE : s.currentGrain.bufferValidEnd ≠ 0) (hge : cfg.gtInfo.GTEs ≤ nr) :
    flushGrain cfg codec s = .error .outOfRange := by
  simp only [flushGrain, hnr]
  rw [if_neg hvE, if_pos hge]

/-- Full characterization of a flush of a not-yet-written, in-range grain. -/
lemma flushGrain_spec (cfg : WriterConfig) (codec : Codec) (s : WriterState)
    (nr : Nat) (hnr : s.currentGrain.bufferNr = some nr)
    (hvE : s.currentGrain.bufferValidEnd ≠ 0) (hlt : nr < cfg.gtInfo.GTEs)
    (hgt0 : s.gt nr = 0) :
    flushGrain cfg codec s =
      (let grain := fillResult cfg s.currentGrain nr
       if isZeroed grain.buffer grain.bufferValidEnd then
         .ok { s with currentGrain := grain }
       else
         let compressed :=
           codec.deflate ((List.range grain.bufferValidEnd).map grain.buffer)
         if compressed.length ≤ zlibBufferSize cfg codec - 12 then
           let dataLen2 := sectorPad (12 + compressed.length)
           .ok
             { gt := fun j => if j = nr then s.curSP else s.gt j
               gd := s.gd
               curSP := (s.curSP + dataLen2 / VMDK_SECTOR_SIZE) % 2 ^ 32
               currentGrain := grain
               file := writeBytes s.file
                 (frameBytes cfg nr compressed ++
                   List.replicate (dataLen2 - (12 + compressed.length)) 0)
                 (s.curSP * VMDK_SECTOR_SIZE) }
         else .error .codecFailure) := by
  simp only [flushGrain, hnr]
  rw [if_neg hvE, if_neg (show ¬ cfg.gtInfo.GTEs ≤ nr by omega)]
  rw [fillGrain_unwritten cfg s.gt s.currentGrain nr hnr hlt hgt0, bind_ok_eq]
  simp only [hgt0, ne_eq, not_true_eq_false, if_false, ite_false, if_neg]
  split_ifs with hz hfit
  · rfl
  · unfold deflateGrain
    rw [if_pos hfit, bind_ok_eq]
    unfold writeGrain bufferNrVal
    have hfr : (fillResult cfg s.currentGrain nr).bufferNr = some nr := by
      unfold fillResult
      split_ifs <;> simp [hnr]
    rw [hfr]
    simp only [Option.getD_some]
    rw [if_neg (show ¬ cfg.gtInfo.GTEs ≤ nr by omega), bind_ok_eq]
  · unfold deflateGrain
    rw [if_neg hfit, bind_error_eq]

lemma flushGrain_gt_preserve (cfg : WriterConfig) (codec : Codec)
    (s s2 : WriterState) (h : flushGrain cfg codec s = .ok s2) (j : Nat)
    (hj : s.gt j ≠ 0) : s2.gt j = s.gt j := by
  cases hb : s.currentGrain.bufferNr with
  | none =>
    rw [flushGrain_bufferNr_none cfg codec s hb] at h
    injection h with h
    rw [← h]
  | some nr =>
    by_cases hvE : s.currentGrain.bufferValidEnd = 0
    · rw [flushGrain_validEnd_zero cfg codec s nr hb hvE] at h
      injection h with h
      rw [← h]
    · by_cases hge : cfg.gtInfo.GTEs ≤ nr
      · rw [flushGrain_out_of_range cfg codec s nr hb hvE hge] at h
        cases h
      · by_cases hgt : s.gt nr = 0
        · rw [flushGrain_spec cfg codec s nr hb hvE (by omega) hgt] at h
          simp only [] at h
          split_ifs at h with hz hfit
          · injection h with h
            rw [← h]
          · injection h with h
            rw [← h]
            have hjn : j ≠ nr := fun he => hj (he ▸ hgt)
            simp only [hjn, if_false, ite_false, if_neg hjn]
        · rw [flushGrain_written cfg codec s nr hb (by omega) hgt hvE] at h
          cases h

/-- C6: once a grain-table entry is nonzero, flushing a buffer for that grain
fails with the overwrite error, a fill that would have to modify the buffer
fails likewise, and a successful flush never changes a nonzero entry. -/
theorem C6_no_overwrite :
    (∀ (cfg : WriterConfig) (codec : Codec) (s : WriterState) (nr : Nat),
      s.currentGrain.bufferNr = some nr → nr < cfg.gtInfo.GTEs →
      s.gt nr ≠ 0 → s.currentGrain.bufferValidEnd ≠ 0 →
      flushGrain cfg codec s = .error .overwriteForbidden) ∧
    (∀ (cfg : WriterConfig) (gt : Nat → Nat) (grain : GrainInfo) (nr : Nat),
      grain.bufferNr = some nr → nr < cfg.gtInfo.GTEs → gt nr ≠ 0 →
      ¬ (grain.bufferValidStart = 0 ∧
         grainLenBytes cfg nr ≤ grain.bufferValidEnd) →
      fillGrain cfg gt grain = .error .overwriteForbidden) ∧
    (∀ (cfg : WriterConfig) (codec : Codec) (s s2 : WriterState),
      flushGrain cfg codec s = .ok s2 → ∀ j, s.gt j ≠ 0 → s2.gt j = s.gt j) := by
  refine ⟨fun cfg codec s nr h1 h2 h3 h4 =>
      flushGrain_written cfg codec s nr h1 h2 h3 h4,
    fun cfg gt grain nr h1 h2 h3 h4 => ?_,
    fun cfg codec s s2 h j hj => flushGrain_gt_preserve cfg codec s s2 h j hj⟩
  rw [fillGrain_written cfg gt grain nr h1 h2 h3, if_neg h4]

/-- Concrete writer state used as the C6 witness: grain 0 is already written
(entry 5) and the buffer holds one byte of grain 0 again. -/
def stateC6 : WriterState :=
  { gt := fun j => if j = 0 then 5 else 0
    gd := fun _ => 0
    curSP := 26
    currentGrain :=
      { buffer := fun _ => 7, bufferNr := some 0, bufferValidStart := 0
        bufferValidEnd := 1 }
    file := emptyVFile }

/-- Configuration of a 96 KiB-capacity writer (192 sectors, two grains). -/
def cfg96 : WriterConfig :=
  { diskHdr :=
      { version := 3, flags := 0x30001, compressAlgorithm := 1
        uncleanShutdown := 0, reserved := 0, capacity := 192, grainSize := 128
        descriptorOffset := 1, descriptorSize := 20, numGTEsPerGT := 512
        rgdOffset := 0, gdOffset := 21, overHead := 26 }
    gtInfo :=
      { GTEs := 2, GTs := 1, GDsectors := 1, GTsectors := 4, lastGrainNr := 1
        lastGrainSize := 32768 } }

/-- Witness for C6: flushing the already-written grain 0 fails with the
overwrite error. -/
theorem C6_no_overwrite_witness :
    flushGrain cfg96 idCodec stateC6 = .error .overwriteForbidden :=
  C6_no_overwrite.1 cfg96 idCodec stateC6 0 rfl (by decide) (by decide) (by decide)

/-! ## C7 part 1: all-zero grains are elided -/

lemma fillResult_buffer_zero (cfg : WriterConfig) (grain : GrainInfo) (nr : Nat)
    (hz : ∀ i, grain.bufferValidStart ≤ i → i < grain.bufferValidEnd →
      grain.buffer i = 0) :
    ∀ i, i < (fillResult cfg grain nr).bufferValidEnd →
      (fillResult cfg grain nr).buffer i = 0 := by
  intro i
  unfold fillResult
  split_ifs with h hvl
  · intro hiv
    exact hz i (by omega) hiv
  · simp only []
    intro hiv
    split_ifs with h1 h2
    · rfl
    · rfl
    · exact hz i (by omega) (by omega)
  · simp only []
    intro hiv
    split_ifs with h1 h2
    · rfl
    · rfl
    · exact hz i (by omega) (by omega)

lemma isZeroed_fillResult (cfg : WriterConfig) (grain : GrainInfo) (nr : Nat)
    (hz : ∀ i, grain.bufferValidStart ≤ i → i < grain.bufferValidEnd →
      grain.buffer i = 0) :
    isZeroed (fillResult cfg grain nr).buffer
      (fillResult cfg grain nr).bufferValidEnd = true := by
  unfold isZeroed
  rw [List.all_eq_true]
  intro i hi
  rw [List.mem_range] at hi
  have hle : 8 * ((fillResult cfg grain nr).bufferValidEnd / 8) ≤
      (fillResult cfg grain nr).bufferValidEnd := by
    rw [Nat.mul_comm]
    exact Nat.div_mul_le_self _ 8
  rw [beq_iff_eq]
  exact fillResult_buffer_zero cfg grain nr hz i (by omega)

lemma flushGrain_zero_content (cfg : WriterConfig) (codec : Codec)
    (s : WriterState) (nr : Nat) (hnr : s.currentGrain.bufferNr = some nr)
    (hlt : nr < cfg.gtInfo.GTEs) (hgt0 : s.gt nr = 0)
    (hz : ∀ i, s.currentGrain.bufferValidStart ≤ i →
      i < s.currentGrain.bufferValidEnd → s.currentGrain.buffer i = 0) :
    ∃ g2, flushGrain cfg codec s = .ok { s with currentGrain := g2 } := by
  by_cases hvE : s.currentGrain.bufferValidEnd = 0
  · exact ⟨s.currentGrain, by rw [flushGrain_validEnd_zero cfg codec s nr hnr hvE]⟩
  · refine ⟨fillResult cfg s.currentGrain nr, ?_⟩
    rw [flushGrain_spec cfg codec s nr hnr hvE hlt hgt0]
    simp only []
    rw [if_pos (isZeroed_fillResult cfg s.currentGrain nr hz)]

/-! ## The writer configuration produced by `StreamOptimized_Create` -/

/-- Geometry of a writer created with `c` bytes of capacity. -/
def writerGtInfo (c : Nat) : SparseGTInfo :=
  let S := CEILING c VMDK_SECTOR_SIZE
  let lastGrainNr := S / 128
  let lastGrainSize := (S &&& (128 - 1)) * VMDK_SECTOR_SIZE
  let GTEs := lastGrainNr + (if lastGrainSize ≠ 0 then 1 else 0)
  let GTs := ((GTEs + 512 - 1) % 2 ^ 64) / 512 % 2 ^ 32
  { GTEs := GTEs
    GTs := GTs
    GDsectors := CEILING (GTs * 4) VMDK_SECTOR_SIZE
    GTsectors := CEILING (512 * 4) VMDK_SECTOR_SIZE
    lastGrainNr := lastGrainNr
    lastGrainSize := lastGrainSize }

lemma getGDGT_writerHdr0 (c : Nat) :
    getGDGT (writerHdr0 c) = some (writerGtInfo c) := by
  have hg : (writerHdr0 c).grainSize = 128 := rfl
  have hn : (writerHdr0 c).numGTEsPerGT = 512 := rfl
  unfold getGDGT
  rw [if_neg (by rw [hg]; decide), if_neg (by rw [hn]; decide)]
  rfl

/-- The header of a freshly created writer, layout fields included. -/
def writerHdr (c : Nat) : SparseExtentHeader :=
  { writerHdr0 c with
    descriptorOffset := 1
    descriptorSize := 20
    gdOffset := 21
    overHead := 21 + (writerGtInfo c).GDsectors +
      (writerGtInfo c).GTs * (writerGtInfo c).GTsectors }

def writerCfg (c : Nat) : WriterConfig :=
  { diskHdr := writerHdr c, gtInfo := writerGtInfo c }

/-- Initial state of a freshly created writer with grain-buffer content `g`. -/
def writerInit (c : Nat) (g : Nat → Nat) : WriterState :=
  { gt := fun _ => 0
    gd := (prefillGD (writerGtInfo c) (21 + (writerGtInfo c).GDsectors)).1
    curSP := (21 + (writerGtInfo c).GDsectors +
      (writerGtInfo c).GTs * (writerGtInfo c).GTsectors) % 2 ^ 32
    currentGrain :=
      { buffer := g, bufferNr := none, bufferValidStart := 0, bufferValidEnd := 0 }
    file := emptyVFile }

lemma StreamOptimized_Create_eq (c : Nat) (g : Nat → Nat) :
    StreamOptimized_Create c g = some (writerCfg c, writerInit c g) := by
  simp only [StreamOptimized_Create]
  rw [getGDGT_writerHdr0 c]
  rfl

/-! ## Single-grain pwrite evaluation -/

lemma prepareGrain_of_ne (cfg : WriterConfig) (codec : Codec) (s s2 : WriterState)
    (grainNr : Nat) (hne : s.currentGrain.bufferNr ≠ some grainNr)
    (hflush : flushGrain cfg codec s = .ok s2) :
    prepareGrain cfg codec s grainNr =
      .ok { s2 with currentGrain := resetGrain s2.currentGrain grainNr } := by
  unfold prepareGrain
  rw [if_neg hne, hflush, bind_ok_eq]

lemma prepareGrain_same (cfg : WriterConfig) (codec : Codec) (s : WriterState)
    (grainNr : Nat) (heq : s.currentGrain.bufferNr = some grainNr) :
    prepareGrain cfg codec s grainNr = .ok s := by
  unfold prepareGrain
  rw [if_pos heq]

/-- One `pwriteLoop` iteration after a successful prepare that left an empty
buffer targeting `grainNr`, when the whole remaining data fits in the current
grain: the data is copied into the buffer and the loop ends. -/
lemma pwriteLoop_last (cfg : WriterConfig) (codec : Codec) (s s1 : WriterState)
    (buf : List Nat) (grainNr uS fuel : Nat) (hbuf : buf ≠ [])
    (hfit : uS + buf.length ≤ grainBytes cfg)
    (hprep : prepareGrain cfg codec s grainNr = .ok s1)
    (h1nr : s1.currentGrain.bufferNr = some grainNr)
    (h1vS : s1.currentGrain.bufferValidStart = 0)
    (h1vE : s1.currentGrain.bufferValidEnd = 0) :
    pwriteLoop cfg codec (fuel + 1) s buf grainNr uS = .ok
      { s1 with currentGrain :=
          { buffer := fun i =>
              if uS ≤ i ∧ i < uS + buf.length then buf.getD (i - uS) 0
              else s1.currentGrain.buffer i
            bufferNr := some grainNr
            bufferValidStart := uS
            bufferValidEnd := uS + buf.length } } := by
  obtain ⟨b, bs, rfl⟩ := List.exists_cons_of_ne_nil hbuf
  simp only [pwriteLoop]
  rw [hprep, bind_ok_eq]
  have hmin : min (b :: bs).length (grainBytes cfg - uS) = (b :: bs).length :=
    Nat.min_eq_left (by omega)
  simp only [hmin, h1vE, h1vS]
  rw [if_true, bind_ok_eq]
  rw [List.drop_length]
  simp only [pwriteLoop]
  simp [h1vS, h1vE, h1nr]

lemma close_flush_error (cfg : WriterConfig) (codec : Codec) (s : WriterState)
    (e : WErr) (descBytes : List Nat) (o : CloseOracle)
    (h : flushGrain cfg codec s = .error e) :
    StreamOptimizedClose cfg codec s descBytes o = .error e := by
  unfold StreamOptimizedClose
  rw [h, bind_error_eq]

/-! ## C3: writes beyond the device capacity -/

/-- C3 (amended): a `pwrite` whose offset is at or beyond `GTEs * grainBytes`
(and whose range stays within one grain) is NOT rejected: it succeeds and
returns its length, and the `OutOfRange` error surfaces only when that grain is
flushed — by a later `pwrite` touching another grain, or by `close()`, which
then fails with `OutOfRange`. -/
theorem C3_write_beyond_capacity (codec : Codec) (c : Nat) (g : Nat → Nat)
    (buf : List Nat) (pos : Nat) (hbuf : buf ≠ [])
    (hpos : (writerCfg c).gtInfo.GTEs * grainBytes (writerCfg c) ≤ pos)
    (hone : pos % grainBytes (writerCfg c) + buf.length ≤
      grainBytes (writerCfg c)) :
    ∃ s1, StreamOptimizedPwrite (writerCfg c) codec (writerInit c g) buf pos =
        .ok (s1, buf.length) ∧
      flushGrain (writerCfg c) codec s1 = .error .outOfRange ∧
      (∀ (descBytes : List Nat) (o : CloseOracle),
        StreamOptimizedClose (writerCfg c) codec s1 descBytes o =
          .error .outOfRange) := by
  have hgB : grainBytes (writerCfg c) = 65536 := by
    show (writerCfg c).diskHdr.grainSize * VMDK_SECTOR_SIZE = 65536
    norm_num [writerCfg, writerHdr, writerHdr0, VMDK_SECTOR_SIZE]
  have hlp : 0 < buf.length := List.length_pos.mpr hbuf
  have hand : pos &&& (grainBytes (writerCfg c) - 1) =
      pos % grainBytes (writerCfg c) := by
    rw [hgB]
    exact Nat.and_pow_two_sub_one_eq_mod pos 16
  have hnone : (writerInit c g).currentGrain.bufferNr = none := rfl
  have hreset := prepareGrain_of_ne (writerCfg c) codec (writerInit c g)
    (writerInit c g) (pos / grainBytes (writerCfg c))
    (by rw [hnone]; exact fun h => Option.noConfusion h)
    (flushGrain_bufferNr_none _ codec _ hnone)
  have hloop := pwriteLoop_last (writerCfg c) codec (writerInit c g) _ buf
    (pos / grainBytes (writerCfg c)) (pos % grainBytes (writerCfg c))
    (buf.length - 1) hbuf (by omega) hreset rfl rfl rfl
  unfold StreamOptimizedPwrite
  simp only []
  rw [hand]
  rw [show buf.length = buf.length - 1 + 1 by omega]
  rw [hloop, bind_ok_eq]
  refine ⟨_, rfl, ?_, ?_⟩
  · exact flushGrain_out_of_range _ codec _ (pos / grainBytes (writerCfg c)) rfl
      (by show pos % grainBytes (writerCfg c) + buf.length ≠ 0; omega)
      ((Nat.le_div_iff_mul_le (by rw [hgB]; norm_num)).mpr hpos)
  · intro descBytes o
    exact close_flush_error _ codec _ _ descBytes o
      (flushGrain_out_of_range _ codec _ (pos / grainBytes (writerCfg c)) rfl
        (by show pos % grainBytes (writerCfg c) + buf.length ≠ 0; omega)
        ((Nat.le_div_iff_mul_le (by rw [hgB]; norm_num)).mpr hpos))

/-- C3 counterexample: on a 96 KiB-capacity writer, a one-byte `pwrite` at
offset `GTEs * grainBytes = 128 KiB` is accepted (returns 1), not rejected. -/
theorem C3_counterexample :
    (StreamOptimized_Create 98304 zeroBytes).map
      (fun p => pwriteRet (StreamOptimizedPwrite p.1 idCodec p.2 [7] 131072)) =
    some (some 1) := by
  rfl

/-- Witness for C3 (amended) at the concrete 96 KiB writer. -/
theorem C3_write_beyond_capacity_witness :
    ∃ s1, StreamOptimizedPwrite (writerCfg 98304) idCodec
        (writerInit 98304 zeroBytes) [7] 131072 = .ok (s1, 1) ∧
      flushGrain (writerCfg 98304) idCodec s1 = .error .outOfRange ∧
      (∀ (descBytes : List Nat) (o : CloseOracle),
        StreamOptimizedClose (writerCfg 98304) idCodec s1 descBytes o =
          .error .outOfRange) :=
  C3_write_beyond_capacity idCodec 98304 zeroBytes [7] 131072 (by decide)
    (by decide) (by decide)

/-! ## C2: close sequence and the ignored end-of-stream write -/

/-- Oracle where only the end-of-stream marker write fails. -/
def eosFails : CloseOracle :=
  { eosOk := false, gdOk := true, descOk := true, hdr1Ok := true
    sync1Ok := true, hdr2Ok := true, sync2Ok := true, finOk := true }

/-- C2 (code bug): `StreamOptimizedClose` ignores the return value of
`writeEOS` (sparse.c line 852).  On a freshly created 96 KiB writer whose
end-of-stream marker `pwrite` fails while every other step succeeds, `close()`
still returns success, contradicting the claim (and spec section 4.7 step 2);
every later step of the sequence does abort the close when it fails. -/
theorem C2_close_ignores_eos_failure :
    (StreamOptimizedClose (writerCfg 98304) idCodec (writerInit 98304 zeroBytes)
        [65] eosFails).isOk = true ∧
    (∀ o : CloseOracle, (o.gdOk = false ∨ o.descOk = false ∨ o.hdr1Ok = false ∨
        o.sync1Ok = false ∨ o.hdr2Ok = false ∨ o.sync2Ok = false ∨
        o.finOk = false) →
      (StreamOptimizedClose (writerCfg 98304) idCodec
        (writerInit 98304 zeroBytes) [65] o).isOk = false) := by
  constructor
  · rfl
  · intro o ho
    unfold StreamOptimizedClose
    rw [flushGrain_bufferNr_none _ idCodec _ rfl, bind_ok_eq]
    simp only []
    rcases ho with h | h | h | h | h | h | h <;> rw [h] <;>
      simp [Except.isOk, Except.toBool]

/-! ## C8: next-data enumeration -/

lemma mul_pow_two_lor_eq_add (m : Nat) : ∀ f b : Nat, b < 2 ^ m →
    f * 2 ^ m ||| b = f * 2 ^ m + b := by
  induction m with
  | zero =>
    intro f b hb
    interval_cases b
    simp
  | succ n ih =>
    intro f b hb
    have hb2 : b.div2 < 2 ^ n := by
      rw [Nat.div2_val]
      rw [Nat.pow_succ] at hb
      omega
    have e1 : f * 2 ^ (n + 1) = Nat.bit false (f * 2 ^ n) := by
      rw [Nat.bit_val]
      simp
      ring
    conv_lhs => rw [e1, ← Nat.bit_decomp b, Nat.lor_bit]
    rw [ih f b.div2 hb2]
    rw [Nat.bit_val, Bool.false_or]
    have e3 : f * 2 ^ (n + 1) = 2 * (f * 2 ^ n) := by ring
    rw [e3]
    have := Nat.bodd_add_div2 b
    omega

/-- Inversion of a successful `getGDGT`. -/
lemma getGDGT_some (hdr : SparseExtentHeader) (info : SparseGTInfo)
    (h : getGDGT hdr = some info) :
    1 ≤ hdr.grainSize ∧ hdr.grainSize ≤ 128 ∧ isPow2 hdr.grainSize = true ∧
    128 ≤ hdr.numGTEsPerGT ∧ isPow2 hdr.numGTEsPerGT = true ∧
    info.lastGrainNr = hdr.capacity / hdr.grainSize ∧
    info.lastGrainSize = hdr.capacity % hdr.grainSize * VMDK_SECTOR_SIZE ∧
    info.GTEs = info.lastGrainNr +
      (if info.lastGrainSize ≠ 0 then 1 else 0) := by
  unfold getGDGT at h
  split_ifs at h with h1 h2
  push_neg at h1 h2
  obtain ⟨d1, d2, d3⟩ := h1
  obtain ⟨d4, d5⟩ := h2
  have hgs1 : 1 ≤ hdr.grainSize := d1
  have hgs3 : isPow2 hdr.grainSize = true := by simpa using d3
  have emod : hdr.capacity &&& (hdr.grainSize - 1) = hdr.capacity % hdr.grainSize :=
    and_pred_pow2_eq_mod hdr.capacity hdr.grainSize hgs1 d2 hgs3
  injection h with h
  subst h
  refine ⟨hgs1, d2, hgs3, by unfold VMDK_SECTOR_SIZE at d4; omega,
    by simpa using d5, rfl, by simp [emod], by simp [emod]⟩

lemma nextDataLoop_no_data (gt : Nat → Nat) (gtInfo : SparseGTInfo) (gB : Nat) :
    ∀ m g0 skip pos, gtInfo.GTEs - g0 ≤ m →
    (∀ i, g0 ≤ i → i < gtInfo.GTEs → gt i = 0) →
    nextDataLoop gt gtInfo gB g0 skip pos false = .error .noMoreData := by
  intro m
  induction m with
  | zero =>
    intro g0 skip pos hm h
    conv_lhs => unfold nextDataLoop
    rw [dif_neg (by omega), if_neg Bool.false_ne_true]
  | succ n ih =>
    intro g0 skip pos hm h
    by_cases hg : g0 < gtInfo.GTEs
    · have step : nextDataLoop gt gtInfo gB g0 skip pos false =
          nextDataLoop gt gtInfo gB (g0 + 1) 0 pos false := by
        conv_lhs => unfold nextDataLoop
        rw [dif_pos hg]
        simp only []
        rw [if_neg (by simp [h g0 le_rfl hg])]
      rw [step]
      exact ih (g0 + 1) 0 pos (by omega) (fun i h1 h2 => h i (by omega) h2)
    · conv_lhs => unfold nextDataLoop
      rw [dif_neg hg, if_neg Bool.false_ne_true]

lemma nextDataLoop_skip_zeros (gt : Nat → Nat) (gtInfo : SparseGTInfo)
    (gB : Nat) : ∀ m g0 skip pos f, g0 + m = f → g0 < f → f ≤ gtInfo.GTEs →
    (∀ i, g0 ≤ i → i < f → gt i = 0) →
    nextDataLoop gt gtInfo gB g0 skip pos false =
      nextDataLoop gt gtInfo gB f 0 pos false := by
  intro m
  induction m with
  | zero =>
    intro g0 skip pos f hm hlt
    omega
  | succ n ih =>
    intro g0 skip pos f hm hlt hub h
    have hg : g0 < gtInfo.GTEs := by omega
    have step : nextDataLoop gt gtInfo gB g0 skip pos false =
        nextDataLoop gt gtInfo gB (g0 + 1) 0 pos false := by
      conv_lhs => unfold nextDataLoop
      rw [dif_pos hg]
      simp only []
      rw [if_neg (by simp [h g0 le_rfl (by omega)])]
    rw [step]
    by_cases hn : n = 0
    · subst hn
      have hf : f = g0 + 1 := by omega
      subst hf
      rfl
    · exact ih (g0 + 1) 0 pos f (by omega) (by omega) hub
        (fun i h1 h2 => h i (by omega) h2)

lemma nextDataLoop_found (gt : Nat → Nat) (gtInfo : SparseGTInfo) (gB : Nat)
    (f skip pos : Nat) (hf : f < gtInfo.GTEs) (hnz : gt f ≠ 0) :
    nextDataLoop gt gtInfo gB f skip pos false =
      nextDataLoop gt gtInfo gB (f + 1) 0 (f * gB ||| skip) true := by
  conv_lhs => unfold nextDataLoop
  rw [dif_pos hf]
  simp only []
  rw [if_pos (by simp [hnz])]
  rw [if_neg (by simp)]

lemma nextDataLoop_want_end (gt : Nat → Nat) (gtInfo : SparseGTInfo)
    (gB : Nat) : ∀ m g1 pos, gtInfo.GTEs - g1 ≤ m →
    (∀ i, g1 ≤ i → i < gtInfo.GTEs → gt i ≠ 0) →
    nextDataLoop gt gtInfo gB g1 0 pos true =
      .ok (pos, gtInfo.lastGrainNr * gB + gtInfo.lastGrainSize) := by
  intro m
  induction m with
  | zero =>
    intro g1 pos hm h
    conv_lhs => unfold nextDataLoop
    rw [dif_neg (by omega), if_pos rfl]
  | succ n ih =>
    intro g1 pos hm h
    by_cases hg : g1 < gtInfo.GTEs
    · have step : nextDataLoop gt gtInfo gB g1 0 pos true =
          nextDataLoop gt gtInfo gB (g1 + 1) 0 pos true := by
        conv_lhs => unfold nextDataLoop
        rw [dif_pos hg]
        simp only []
        rw [if_neg (by simp [h g1 le_rfl hg])]
      rw [step]
      exact ih (g1 + 1) pos (by omega) (fun i h1 h2 => h i (by omega) h2)
    · conv_lhs => unfold nextDataLoop
      rw [dif_neg hg, if_pos rfl]

lemma nextDataLoop_want_zero (gt : Nat → Nat) (gtInfo : SparseGTInfo)
    (gB : Nat) : ∀ m g1 pos e, g1 + m = e → e < gtInfo.GTEs → gt e = 0 →
    (∀ i, g1 ≤ i → i < e → gt i ≠ 0) →
    nextDataLoop gt gtInfo gB g1 0 pos true = .ok (pos, e * gB) := by
  intro m
  induction m with
  | zero =>
    intro g1 pos e hm he hz hnz
    subst hm
    simp only [Nat.add_zero] at *
    conv_lhs => unfold nextDataLoop
    rw [dif_pos he]
    simp only []
    rw [if_pos (by simp [hz]), if_pos trivial]
  | succ n ih =>
    intro g1 pos e hm he hz hnz
    have hg : g1 < gtInfo.GTEs := by omega
    have step : nextDataLoop gt gtInfo gB g1 0 pos true =
        nextDataLoop gt gtInfo gB (g1 + 1) 0 pos true := by
      conv_lhs => unfold nextDataLoop
      rw [dif_pos hg]
      simp only []
      rw [if_neg (by simp [hnz g1 le_rfl (by omega)])]
    rw [step]
    exact ih (g1 + 1) pos e (by omega) he hz (fun i h1 h2 => hnz i (by omega) h2)


/-- C8 (amended): characterization of `SparseNextData` for readers whose
geometry comes from `getGDGT`, provided `end / grainBytes` fits in 32 bits (the
initial `grainNr` is a `uint32_t` store — beyond that the claim fails, see the
counterexample) and `GTEs < 2^32` (so the `uint32_t` loop counter does not
wrap).  If no grain at or after `end` has a nonzero entry, the call fails with
no-more-data; otherwise, with `f` the first nonzero grain at or after `end`,
the returned `pos` is `f * grainBytes` plus the sub-grain offset of `end` when
`f` is `end`'s own grain, and the returned `end` is the start of the first
later zero grain, or `lastGrainNr * grainBytes + lastGrainSize` at table
end. -/
theorem C8_next_data (sdi : SparseDiskInfo) (p : Nat)
    (hwf : getGDGT sdi.diskHdr = some sdi.gtInfo)
    (hdiv : p / rGrainBytes sdi < 2 ^ 32)
    (hGTEs : sdi.gtInfo.GTEs < 2 ^ 32) :
    ((∀ i, p / rGrainBytes sdi ≤ i → i < sdi.gtInfo.GTEs → sdi.gt i = 0) →
      SparseNextData sdi p = .error .noMoreData) ∧
    (∀ f, p / rGrainBytes sdi ≤ f → f < sdi.gtInfo.GTEs → sdi.gt f ≠ 0 →
      (∀ i, p / rGrainBytes sdi ≤ i → i < f → sdi.gt i = 0) →
      ((∀ i, f < i → i < sdi.gtInfo.GTEs → sdi.gt i ≠ 0) →
        SparseNextData sdi p = .ok
          (f * rGrainBytes sdi +
            (if f = p / rGrainBytes sdi then p % rGrainBytes sdi else 0),
           sdi.gtInfo.lastGrainNr * rGrainBytes sdi + sdi.gtInfo.lastGrainSize)) ∧
      (∀ e, f < e → e < sdi.gtInfo.GTEs → sdi.gt e = 0 →
        (∀ i, f < i → i < e → sdi.gt i ≠ 0) →
        SparseNextData sdi p = .ok
          (f * rGrainBytes sdi +
            (if f = p / rGrainBytes sdi then p % rGrainBytes sdi else 0),
           e * rGrainBytes sdi))) := by
  obtain ⟨hgs1, hgs2, hgs3, -, -, -, -, -⟩ := getGDGT_some sdi.diskHdr sdi.gtInfo hwf
  obtain ⟨j, hj7, hgs⟩ := isPow2_exists sdi.diskHdr.grainSize hgs1 hgs2 hgs3
  have hgBpow : rGrainBytes sdi = 2 ^ (j + 9) := by
    unfold rGrainBytes VMDK_SECTOR_SIZE
    rw [hgs, pow_add]
    norm_num
  have hgBpos : 0 < rGrainBytes sdi := by rw [hgBpow]; positivity
  have hmod : p / rGrainBytes sdi % 2 ^ 32 = p / rGrainBytes sdi :=
    Nat.mod_eq_of_lt hdiv
  have hskip : p &&& (rGrainBytes sdi - 1) = p % rGrainBytes sdi := by
    rw [hgBpow]
    exact Nat.and_pow_two_sub_one_eq_mod p (j + 9)
  have hstart : SparseNextData sdi p =
      nextDataLoop sdi.gt sdi.gtInfo (rGrainBytes sdi) (p / rGrainBytes sdi)
        (p % rGrainBytes sdi) 0 false := by
    unfold SparseNextData
    simp only []
    rw [hmod, hskip]
  constructor
  · intro hz
    rw [hstart]
    exact nextDataLoop_no_data sdi.gt sdi.gtInfo (rGrainBytes sdi)
      sdi.gtInfo.GTEs (p / rGrainBytes sdi) (p % rGrainBytes sdi) 0
      (by omega) hz
  · intro f hf1 hf2 hf3 hf4
    have hpos : nextDataLoop sdi.gt sdi.gtInfo (rGrainBytes sdi)
        (p / rGrainBytes sdi) (p % rGrainBytes sdi) 0 false =
        nextDataLoop sdi.gt sdi.gtInfo (rGrainBytes sdi) (f + 1) 0
          (f * rGrainBytes sdi +
            (if f = p / rGrainBytes sdi then p % rGrainBytes sdi else 0))
          true := by
      by_cases hfe : f = p / rGrainBytes sdi
      · rw [show p / rGrainBytes sdi = f from hfe.symm]
        rw [nextDataLoop_found sdi.gt sdi.gtInfo (rGrainBytes sdi) f
          (p % rGrainBytes sdi) 0 hf2 hf3]
        rw [if_pos rfl, hgBpow,
          mul_pow_two_lor_eq_add (j + 9) f (p % 2 ^ (j + 9))
            (Nat.mod_lt p (by positivity))]
      · rw [nextDataLoop_skip_zeros sdi.gt sdi.gtInfo (rGrainBytes sdi)
          (f - p / rGrainBytes sdi) (p / rGrainBytes sdi)
          (p % rGrainBytes sdi) 0 f (by omega) (by omega) (by omega) hf4]
        rw [nextDataLoop_found sdi.gt sdi.gtInfo (rGrainBytes sdi) f 0 0
          hf2 hf3]
        rw [if_neg hfe, Nat.or_zero]
        exact congrArg (fun z => nextDataLoop sdi.gt sdi.gtInfo (rGrainBytes sdi) (f + 1) 0 z true) (Nat.add_zero _).symm
    constructor
    · intro hend
      rw [hstart, hpos]
      exact nextDataLoop_want_end sdi.gt sdi.gtInfo (rGrainBytes sdi)
        sdi.gtInfo.GTEs (f + 1) _ (by omega)
        (fun i h1 h2 => hend i (by omega) h2)
    · intro e he1 he2 he3 he4
      rw [hstart, hpos]
      exact nextDataLoop_want_zero sdi.gt sdi.gtInfo (rGrainBytes sdi)
        (e - (f + 1)) (f + 1) _ e (by omega) he2 he3
        (fun i h1 h2 => he4 i (by omega) h2)

/-- C8 counterexample input: a disk of 100 sectors in one 128-sector grain,
whose single grain is present (`gt 0 = 5`); the geometry is exactly what
`getGDGT` yields on this header. -/
def hdrC8 : SparseExtentHeader :=
  { version := 3, flags := 0x30001, compressAlgorithm := 1, uncleanShutdown := 0
    reserved := 0, capacity := 100, grainSize := 128, descriptorOffset := 0
    descriptorSize := 0, numGTEsPerGT := 512, rgdOffset := 0, gdOffset := 1
    overHead := 8 }

def sdiC8 : SparseDiskInfo :=
  { diskHdr := hdrC8
    gtInfo := { GTEs := 1, GTs := 1, GDsectors := 1, GTsectors := 4
                lastGrainNr := 0, lastGrainSize := 51200 }
    gt := fun j => if j = 0 then 5 else 0
    file := emptyVFile }

/-- C8 counterexample: with `end = 2^48` every grain index at or after
`end / grainBytes = 2^32` is past the table, so the claim demands the
no-more-data error; but the initial `grainNr = end / grainBytes` is stored
into a `uint32_t`, wraps to `0`, and the call succeeds, reporting the data of
grain 0. -/
theorem C8_counterexample :
    (∀ i, 2 ^ 48 / rGrainBytes sdiC8 ≤ i → i < sdiC8.gtInfo.GTEs →
      sdiC8.gt i = 0) ∧
    SparseNextData sdiC8 (2 ^ 48) = .ok (0, 51200) := by
  constructor
  · intro i h1 h2
    have e : (2 : Nat) ^ 48 / rGrainBytes sdiC8 = 2 ^ 32 := by decide
    have e2 : sdiC8.gtInfo.GTEs = 1 := rfl
    rw [e] at h1
    rw [e2] at h2
    omega
  · have e1 : (2 : Nat) ^ 48 / rGrainBytes sdiC8 % 2 ^ 32 = 0 := by decide
    have e2 : (2 : Nat) ^ 48 &&& (rGrainBytes sdiC8 - 1) = 0 := by decide
    unfold SparseNextData
    simp only []
    rw [e1, e2]
    rw [nextDataLoop_found sdiC8.gt sdiC8.gtInfo (rGrainBytes sdiC8) 0 0 0
      (by decide) (by decide)]
    rw [nextDataLoop_want_end sdiC8.gt sdiC8.gtInfo (rGrainBytes sdiC8) 0 1 _
      (by decide) (fun i h1 h2 => absurd (h1.trans_lt h2) (by decide))]
    exact congrArg Except.ok (by decide)

/-- Witness for C8 on the same one-grain reader at `end = 0`: the present
grain 0 is found, `pos = 0`, and the table ends, so
`end = lastGrainNr*grainBytes + lastGrainSize = 51200`. -/
theorem C8_next_data_witness :
    getGDGT sdiC8.diskHdr = some sdiC8.gtInfo ∧
    (0 : Nat) / rGrainBytes sdiC8 < 2 ^ 32 ∧
    sdiC8.gtInfo.GTEs < 2 ^ 32 ∧
    SparseNextData sdiC8 0 = .ok (0, 51200) :=
  ⟨by decide, by decide, by decide, by
    have h := ((C8_next_data sdiC8 0 (by decide) (by decide) (by decide)).2 0
      (by decide) (by decide) (by decide)
      (fun i h1 h2 => absurd h2 (by omega))).1
      (fun i h1 h2 => absurd h2 (by
        intro hc
        rw [show sdiC8.gtInfo.GTEs = 1 from by decide] at hc
        omega))
    exact h.trans (congrArg Except.ok (by decide))⟩

lemma readBytes_length (f : VFile) (len pos : Nat) (l : List Nat)
    (h : readBytes f len pos = some l) : l.length = len := by
  unfold readBytes at h
  split_ifs at h with h1 h2
  · injection h with h
    subst h
    simp [h1]
  · injection h with h
    subst h
    simp

lemma bind_ok_inv {ε α β : Type} (e : Except ε α) (f : α → Except ε β) (b : β)
    (h : (e >>= f) = .ok b) : ∃ a, e = .ok a ∧ f a = .ok b := by
  cases e with
  | error err =>
    rw [bind_error_eq] at h
    exact absurd h (by simp)
  | ok a =>
    rw [bind_ok_eq] at h
    exact ⟨a, rfl, h⟩

set_option maxRecDepth 4000 in
set_option maxHeartbeats 12000000 in
/-- Length characterization of the `SparsePread` loop: a successful read
returns exactly `min len (endOfDisk - startOffset)` bytes, where `endOfDisk`
is `lastGrainNr * grainBytes + lastGrainSize`. -/
lemma preadLoop_length (sdi : SparseDiskInfo) (codec : Codec)
    (hS : sdi.gtInfo.lastGrainSize < rGrainBytes sdi) :
    ∀ len grainNr skip l, skip < rGrainBytes sdi →
      preadLoop sdi codec len grainNr skip = .ok l →
      l.length = min len
        (sdi.gtInfo.lastGrainNr * rGrainBytes sdi + sdi.gtInfo.lastGrainSize
          - (grainNr * rGrainBytes sdi + skip)) := by
  intro len
  induction len using Nat.strong_induction_on with
  | _ len ih =>
  intro grainNr skip l hskip h
  rw [preadLoop.eq_def] at h
  by_cases hlen : len = 0
  · rw [dif_pos hlen] at h
    injection h with h
    subst h
    simp [hlen]
  · rw [dif_neg hlen] at h
    by_cases hbrk : rGrainLen sdi grainNr ≤ skip
    · rw [dif_pos hbrk] at h
      injection h with h
      subst h
      simp only [List.length_nil]
      unfold rGrainLen at hbrk
      by_cases h1 : grainNr < sdi.gtInfo.lastGrainNr
      · rw [if_pos h1] at hbrk
        omega
      · rw [if_neg h1] at hbrk
        by_cases h2 : grainNr = sdi.gtInfo.lastGrainNr
        · rw [if_pos h2] at hbrk
          rw [h2]
          omega
        · rw [if_neg h2] at hbrk
          have hmul : (sdi.gtInfo.lastGrainNr + 1) * rGrainBytes sdi ≤
              grainNr * rGrainBytes sdi :=
            Nat.mul_le_mul_right _ (by omega)
          rw [Nat.add_mul, Nat.one_mul] at hmul
          omega
    · rw [dif_neg hbrk] at h
      obtain ⟨bytes, hE1, h2⟩ := bind_ok_inv _ _ _ h
      obtain ⟨rest, hR, h3⟩ := bind_ok_inv _ _ _ h2
      have hl : bytes ++ rest = l := Except.ok.inj h3
      subst hl
      have hrlen := ih (len - min len (rGrainLen sdi grainNr - skip)) (by omega)
        (grainNr + 1) 0 rest (by omega) hR
      have hblen : bytes.length = min len (rGrainLen sdi grainNr - skip) := by
        unfold preadGrain at hE1
        simp only [] at hE1
        by_cases hs0 : sdi.gt grainNr = 0
        · rw [if_pos hs0] at hE1
          have hb := Except.ok.inj hE1
          rw [← hb]
          simp
        · rw [if_neg hs0] at hE1
          by_cases hs1 : sdi.gt grainNr = 1
          · rw [if_pos hs1] at hE1
            have hb := Except.ok.inj hE1
            rw [← hb]
            simp
          · rw [if_neg hs1] at hE1
            by_cases hcmp : sdi.diskHdr.flags &&& SPARSEFLAG_COMPRESSED ≠ 0
            · rw [if_pos hcmp] at hE1
              obtain ⟨r1, hr1, hE2⟩ := bind_ok_inv _ _ _ hE1
              obtain ⟨hc, hhc, hE3⟩ := bind_ok_inv _ _ _ hE2
              by_cases hb1 :
                  (sdi.diskHdr.grainSize + 1) * VMDK_SECTOR_SIZE - hc.1 < hc.2
              · rw [if_pos hb1] at hE3
                exact absurd hE3 (by simp)
              · rw [if_neg hb1] at hE3
                obtain ⟨readBuf, hrb, hE4⟩ := bind_ok_inv _ _ _ hE3
                by_cases hb2 : rGrainBytes sdi <
                    (codec.inflate ((readBuf.drop hc.1).take hc.2)).length
                · rw [if_pos hb2] at hE4
                  exact absurd hE4 (by simp)
                · rw [if_neg hb2] at hE4
                  by_cases hb3 : rGrainBytes sdi - (rGrainBytes sdi -
                      (codec.inflate ((readBuf.drop hc.1).take hc.2)).length) <
                      rGrainLen sdi grainNr
                  · rw [if_pos hb3] at hE4
                    exact absurd hE4 (by simp)
                  · rw [if_neg hb3] at hE4
                    have hb := Except.ok.inj hE4
                    rw [← hb]
                    simp only [List.length_take, List.length_drop]
                    omega
            · rw [if_neg hcmp] at hE1
              cases hrb : readBytes sdi.file
                  (min len (rGrainLen sdi grainNr - skip))
                  (sdi.gt grainNr * VMDK_SECTOR_SIZE + skip) with
              | none =>
                rw [hrb] at hE1
                exact absurd hE1 (by simp)
              | some lr =>
                rw [hrb] at hE1
                simp only [] at hE1
                have hb := Except.ok.inj hE1
                rw [← hb]
                exact readBytes_length _ _ _ _ hrb
      rw [List.length_append, hblen, hrlen]
      unfold rGrainLen at hbrk ⊢
      by_cases h1 : grainNr < sdi.gtInfo.lastGrainNr
      · rw [if_pos h1] at hbrk ⊢
        have hmul : (grainNr + 1) * rGrainBytes sdi ≤
            sdi.gtInfo.lastGrainNr * rGrainBytes sdi :=
          Nat.mul_le_mul_right _ (by omega)
        rw [Nat.add_mul, Nat.one_mul] at hmul ⊢
        omega
      · rw [if_neg h1] at hbrk ⊢
        by_cases h2 : grainNr = sdi.gtInfo.lastGrainNr
        · rw [if_pos h2] at hbrk ⊢
          rw [h2]
          rw [Nat.add_mul, Nat.one_mul]
          omega
        · rw [if_neg h2] at hbrk
          omega

/-- C10 (amended): for a reader whose geometry comes from `getGDGT`, provided
`pos / grainBytes` fits in 32 bits (the initial `grainNr` is a `uint32_t`
store — beyond that the claim fails, see the counterexample) and the grain
count `GTEs` fits in 32 bits (the loop's `grainNr++` is a `uint32_t`
increment: on a reader with `lastGrainNr ≥ 2^32` the counter wraps and the
source never truncates, so the claim is outside the model), a successful
`SparsePread` returns exactly `min len (capacityBytes - pos)` bytes: the
request is truncated at the end of the disk and is not an error, and a read
starting at or past the capacity returns 0 bytes. -/
theorem C10_pread_truncates (sdi : SparseDiskInfo) (codec : Codec)
    (len pos : Nat) (l : List Nat)
    (hwf : getGDGT sdi.diskHdr = some sdi.gtInfo)
    (hdiv : pos / rGrainBytes sdi < 2 ^ 32)
    (hfit : sdi.gtInfo.GTEs < 2 ^ 32)
    (hok : SparsePread sdi codec len pos = .ok l) :
    l.length = min len (SparseGetCapacity sdi - pos) := by
  obtain ⟨hgs1, hgs2, hgs3, -, -, hLN, hLS, -⟩ :=
    getGDGT_some sdi.diskHdr sdi.gtInfo hwf
  obtain ⟨j, hj7, hgs⟩ := isPow2_exists sdi.diskHdr.grainSize hgs1 hgs2 hgs3
  have hgBpow : rGrainBytes sdi = 2 ^ (j + 9) := by
    unfold rGrainBytes VMDK_SECTOR_SIZE
    rw [hgs, pow_add]
    norm_num
  have hgBpos : 0 < rGrainBytes sdi := by
    rw [hgBpow]
    positivity
  have hS : sdi.gtInfo.lastGrainSize < rGrainBytes sdi := by
    rw [hLS]
    unfold rGrainBytes VMDK_SECTOR_SIZE
    have hm : sdi.diskHdr.capacity % sdi.diskHdr.grainSize <
        sdi.diskHdr.grainSize := Nat.mod_lt _ (by omega)
    omega
  have hcap : sdi.gtInfo.lastGrainNr * rGrainBytes sdi + sdi.gtInfo.lastGrainSize
      = SparseGetCapacity sdi := by
    rw [hLN, hLS]
    unfold SparseGetCapacity rGrainBytes
    have hdm := Nat.div_add_mod sdi.diskHdr.capacity sdi.diskHdr.grainSize
    calc sdi.diskHdr.capacity / sdi.diskHdr.grainSize *
          (sdi.diskHdr.grainSize * VMDK_SECTOR_SIZE) +
          sdi.diskHdr.capacity % sdi.diskHdr.grainSize * VMDK_SECTOR_SIZE
        = (sdi.diskHdr.grainSize * (sdi.diskHdr.capacity / sdi.diskHdr.grainSize) +
            sdi.diskHdr.capacity % sdi.diskHdr.grainSize) * VMDK_SECTOR_SIZE := by
          ring
      _ = sdi.diskHdr.capacity * VMDK_SECTOR_SIZE := by rw [hdm]
  have hmod : pos / rGrainBytes sdi % 2 ^ 32 = pos / rGrainBytes sdi :=
    Nat.mod_eq_of_lt hdiv
  have hskip : pos &&& (rGrainBytes sdi - 1) = pos % rGrainBytes sdi := by
    rw [hgBpow]
    exact Nat.and_pow_two_sub_one_eq_mod pos (j + 9)
  unfold SparsePread at hok
  simp only [] at hok
  rw [hmod, hskip] at hok
  have hlen := preadLoop_length sdi codec hS len (pos / rGrainBytes sdi)
    (pos % rGrainBytes sdi) l (Nat.mod_lt _ hgBpos) hok
  rw [hlen, hcap, Nat.div_add_mod']

/-- C10 counterexample input: the 100-sector header of `hdrC8` with an empty
grain table (no grain written) over an empty file. -/
def sdiC10 : SparseDiskInfo :=
  { diskHdr := hdrC8
    gtInfo := { GTEs := 1, GTs := 1, GDsectors := 1, GTsectors := 4
                lastGrainNr := 0, lastGrainSize := 51200 }
    gt := fun _ => 0
    file := emptyVFile }

lemma sdiC10_pread_one (pos : Nat)
    (h1 : pos / rGrainBytes sdiC10 % 2 ^ 32 = 0)
    (h2 : pos &&& (rGrainBytes sdiC10 - 1) = 0) :
    SparsePread sdiC10 idCodec 1 pos = .ok [0] := by
  unfold SparsePread
  simp only []
  rw [h1, h2]
  rw [preadLoop.eq_def]
  rw [dif_neg (by omega : ¬(1 : Nat) = 0)]
  rw [dif_neg (by decide : ¬rGrainLen sdiC10 0 ≤ 0)]
  simp only []
  have hg : preadGrain sdiC10 idCodec 0 0 (min 1 (rGrainLen sdiC10 0 - 0)) =
      .ok [0] := by
    unfold preadGrain
    simp only []
    rw [if_pos (show sdiC10.gt 0 = 0 from rfl)]
    exact congrArg Except.ok (by decide)
  rw [hg, bind_ok_eq]
  have hrest : preadLoop sdiC10 idCodec (1 - min 1 (rGrainLen sdiC10 0 - 0))
      (0 + 1) 0 = .ok [] := by
    rw [preadLoop.eq_def]
    rw [dif_pos (by decide)]
  rw [hrest, bind_ok_eq]
  exact congrArg Except.ok (by decide)

/-- C10 counterexample: with `pos = 2^48`, far past the 51200-byte capacity,
the claim says a 1-byte read returns 0 bytes; but the initial
`grainNr = pos / grainBytes` is stored into a `uint32_t`, wraps to `0`, and
the call returns 1 byte (from grain 0 of the disk). -/
theorem C10_counterexample :
    SparseGetCapacity sdiC10 ≤ 2 ^ 48 ∧
    SparsePread sdiC10 idCodec 1 (2 ^ 48) = .ok [0] := by
  constructor
  · decide
  · exact sdiC10_pread_one (2 ^ 48) (by decide) (by decide)

/-- Witness for C10 at `pos = 0`, `len = 1` on the 51200-byte all-sparse
reader: the read succeeds with 1 byte, and `1 = min 1 (51200 - 0)`. -/
theorem C10_pread_truncates_witness :
    getGDGT sdiC10.diskHdr = some sdiC10.gtInfo ∧
    (0 : Nat) / rGrainBytes sdiC10 < 2 ^ 32 ∧
    sdiC10.gtInfo.GTEs < 2 ^ 32 ∧
    SparsePread sdiC10 idCodec 1 0 = .ok [0] ∧
    ([0] : List Nat).length = min 1 (SparseGetCapacity sdiC10 - 0) :=
  ⟨by decide, by decide, by decide, sdiC10_pread_one 0 (by decide) (by decide),
    C10_pread_truncates sdiC10 idCodec 1 0 [0] (by decide) (by decide)
      (by decide) (sdiC10_pread_one 0 (by decide) (by decide))⟩

/-! ## C7: an all-zero write session leaves every grain-table entry zero -/

/-- Invariant of a writer that has only ever buffered zero bytes: the table is
all zero and the current grain's valid window starts at 0 and holds zeros,
targeting an in-range grain whenever nonempty. -/
def zeroWriter (cfg : WriterConfig) (s : WriterState) : Prop :=
  (∀ j, s.gt j = 0) ∧
  s.currentGrain.bufferValidStart = 0 ∧
  (∀ i, i < s.currentGrain.bufferValidEnd → s.currentGrain.buffer i = 0) ∧
  (∀ nr, s.currentGrain.bufferNr = some nr →
    s.currentGrain.bufferValidEnd ≠ 0 → nr < cfg.gtInfo.GTEs)

lemma getD_zero (buf : List Nat) (hz : ∀ b ∈ buf, b = 0) :
    ∀ k, buf.getD k 0 = 0 := by
  induction buf with
  | nil => intro k; rfl
  | cons b bs ih =>
    intro k
    cases k with
    | zero => simpa using hz b (by simp)
    | succ k2 =>
      simp only [List.getD_cons_succ]
      exact ih (fun x hx => hz x (by simp [hx])) k2

lemma zeroWriter_flush (cfg : WriterConfig) (codec : Codec) (s : WriterState)
    (h : zeroWriter cfg s) :
    ∃ g2, flushGrain cfg codec s = .ok { s with currentGrain := g2 } := by
  obtain ⟨hgt, hvS, hbz, hbnd⟩ := h
  cases hb : s.currentGrain.bufferNr with
  | none => exact ⟨s.currentGrain, flushGrain_bufferNr_none cfg codec s hb⟩
  | some nr =>
    by_cases hvE : s.currentGrain.bufferValidEnd = 0
    · exact ⟨s.currentGrain, flushGrain_validEnd_zero cfg codec s nr hb hvE⟩
    · exact flushGrain_zero_content cfg codec s nr hb (hbnd nr hb hvE) (hgt nr)
        (fun i h1 h2 => hbz i h2)

lemma pwriteLoop_zero (cfg : WriterConfig) (codec : Codec)
    (hgB : 0 < grainBytes cfg) :
    ∀ fuel buf s grainNr,
      buf.length ≤ fuel →
      (∀ b ∈ buf, b = 0) →
      zeroWriter cfg s →
      grainNr * grainBytes cfg + buf.length ≤
        cfg.gtInfo.GTEs * grainBytes cfg →
      ∃ s2, pwriteLoop cfg codec fuel s buf grainNr 0 = .ok s2 ∧
        zeroWriter cfg s2 := by
  intro fuel
  induction fuel with
  | zero =>
    intro buf s grainNr hf hz hinv hspan
    have hnil : buf = [] := List.eq_nil_of_length_eq_zero (by omega)
    subst hnil
    exact ⟨s, rfl, hinv⟩
  | succ f ih =>
    intro buf s grainNr hf hz hinv hspan
    cases buf with
    | nil => exact ⟨s, rfl, hinv⟩
    | cons b bs =>
      obtain ⟨hgt, hvS, hbz, hbnd⟩ := hinv
      simp only [List.length_cons] at hf hspan
      have hgrlt : grainNr < cfg.gtInfo.GTEs := by
        by_contra hcon
        push_neg at hcon
        have hmul := Nat.mul_le_mul_right (grainBytes cfg) hcon
        omega
      have hmul2 : (grainNr + 1) * grainBytes cfg ≤
          cfg.gtInfo.GTEs * grainBytes cfg :=
        Nat.mul_le_mul_right _ (by omega)
      rw [Nat.add_mul, Nat.one_mul] at hmul2
      obtain ⟨s1, hprep, h1gt, h1vS, h1bz, h1nr⟩ :
          ∃ s1, prepareGrain cfg codec s grainNr = .ok s1 ∧
            (∀ j, s1.gt j = 0) ∧
            s1.currentGrain.bufferValidStart = 0 ∧
            (∀ i, i < s1.currentGrain.bufferValidEnd →
              s1.currentGrain.buffer i = 0) ∧
            s1.currentGrain.bufferNr = some grainNr := by
        by_cases hsame : s.currentGrain.bufferNr = some grainNr
        · exact ⟨s, prepareGrain_same cfg codec s grainNr hsame,
            hgt, hvS, hbz, hsame⟩
        · obtain ⟨g2, hfl⟩ := zeroWriter_flush cfg codec s ⟨hgt, hvS, hbz, hbnd⟩
          refine ⟨_, prepareGrain_of_ne cfg codec s _ grainNr hsame hfl,
            hgt, rfl, ?_, rfl⟩
          intro i hi
          exact absurd hi (by simp [resetGrain])
      simp only [pwriteLoop]
      rw [hprep, bind_ok_eq]
      by_cases hvE0 : s1.currentGrain.bufferValidEnd = 0
      · rw [if_pos hvE0, bind_ok_eq]
        refine ih _ _ _ ?_ ?_ ?_ ?_
        · simp only [List.length_drop, List.length_cons]
          omega
        · intro x hx
          exact hz x (List.mem_of_mem_drop hx)
        · refine ⟨h1gt, ?_, ?_, ?_⟩
          · simp [h1vS]
          · intro i hi
            simp only [] at hi ⊢
            split_ifs with hiu
            · exact getD_zero (b :: bs) hz _
            · rw [hvE0] at hi
              by_cases hc : (0 : Nat) < 0 + min (b :: bs).length (grainBytes cfg - 0)
              · rw [if_pos hc] at hi
                exact absurd hi (by omega)
              · rw [if_neg hc] at hi
                exact absurd hi (by omega)
          · intro nr hnr2 hne2
            have heq := h1nr.symm.trans hnr2
            cases Option.some.inj heq
            exact hgrlt
        · simp only [List.length_drop, List.length_cons]
          rw [Nat.add_mul, Nat.one_mul]
          omega
      · rw [if_neg hvE0]
        rw [if_neg (show ¬ (0 + min (b :: bs).length (grainBytes cfg - 0) <
            s1.currentGrain.bufferValidStart ∨
            s1.currentGrain.bufferValidEnd < 0) by
          rw [h1vS]
          simp)]
        rw [bind_ok_eq]
        refine ih _ _ _ ?_ ?_ ?_ ?_
        · simp only [List.length_drop, List.length_cons]
          omega
        · intro x hx
          exact hz x (List.mem_of_mem_drop hx)
        · refine ⟨h1gt, ?_, ?_, ?_⟩
          · simp [h1vS]
          · intro i hi
            simp only [] at hi ⊢
            split_ifs with hiu
            · exact getD_zero (b :: bs) hz _
            · by_cases hc : s1.currentGrain.bufferValidEnd <
                  0 + min (b :: bs).length (grainBytes cfg - 0)
              · rw [if_pos hc] at hi
                exact absurd hi (by omega)
              · rw [if_neg hc] at hi
                exact h1bz i hi
          · intro nr hnr2 hne2
            have heq := h1nr.symm.trans hnr2
            cases Option.some.inj heq
            exact hgrlt
        · simp only [List.length_drop, List.length_cons]
          rw [Nat.add_mul, Nat.one_mul]
          omega

lemma capacity_le_span (c : Nat) :
    c ≤ (writerCfg c).gtInfo.GTEs * grainBytes (writerCfg c) := by
  have hgB : grainBytes (writerCfg c) = 65536 := by
    show (writerCfg c).diskHdr.grainSize * VMDK_SECTOR_SIZE = 65536
    norm_num [writerCfg, writerHdr, writerHdr0, VMDK_SECTOR_SIZE]
  have hgt : (writerCfg c).gtInfo = writerGtInfo c := rfl
  rw [hgB, hgt]
  have hG : (writerGtInfo c).GTEs =
      CEILING c VMDK_SECTOR_SIZE / 128 +
      (if (CEILING c VMDK_SECTOR_SIZE &&& (128 - 1)) * VMDK_SECTOR_SIZE ≠ 0
       then 1 else 0) := rfl
  have hand : CEILING c VMDK_SECTOR_SIZE &&& (128 - 1) =
      CEILING c VMDK_SECTOR_SIZE % 128 :=
    Nat.and_pow_two_sub_one_eq_mod _ 7
  rw [hand] at hG
  rw [hG]
  unfold CEILING VMDK_SECTOR_SIZE
  by_cases hm : (c + 512 - 1) / 512 % 128 = 0
  · rw [if_neg (by omega)]
    omega
  · rw [if_pos (by omega)]
    omega

/-- C7: a grain whose buffered bytes are all zero is elided at flush — the
flush succeeds without touching the file, the sector cursor or the table, so
the grain-table entry stays 0; and an all-zero write over the whole capacity
of a fresh writer, followed by the close-time flush, leaves every grain-table
entry equal to zero. -/
theorem C7_zero_elision :
    (∀ (cfg : WriterConfig) (codec : Codec) (s : WriterState) (nr : Nat),
      s.currentGrain.bufferNr = some nr → nr < cfg.gtInfo.GTEs →
      s.gt nr = 0 →
      (∀ i, s.currentGrain.bufferValidStart ≤ i →
        i < s.currentGrain.bufferValidEnd → s.currentGrain.buffer i = 0) →
      ∃ s2, flushGrain cfg codec s = .ok s2 ∧ s2.gt = s.gt ∧
        s2.file = s.file ∧ s2.curSP = s.curSP ∧ s2.gt nr = 0) ∧
    (∀ (c : Nat) (g : Nat → Nat) (codec : Codec),
      ∃ s2, StreamOptimizedPwrite (writerCfg c) codec (writerInit c g)
          (List.replicate c 0) 0 = .ok (s2, c) ∧
        (∀ j, s2.gt j = 0) ∧
        ∃ s3, flushGrain (writerCfg c) codec s2 = .ok s3 ∧
          ∀ j, s3.gt j = 0) := by
  constructor
  · intro cfg codec s nr hnr hlt hgt0 hz
    obtain ⟨g2, hfl⟩ := flushGrain_zero_content cfg codec s nr hnr hlt hgt0 hz
    exact ⟨_, hfl, rfl, rfl, rfl, hgt0⟩
  · intro c g codec
    have hgB : grainBytes (writerCfg c) = 65536 := by
      show (writerCfg c).diskHdr.grainSize * VMDK_SECTOR_SIZE = 65536
      norm_num [writerCfg, writerHdr, writerHdr0, VMDK_SECTOR_SIZE]
    have hspan := capacity_le_span c
    have hinv0 : zeroWriter (writerCfg c) (writerInit c g) := by
      refine ⟨fun j => rfl, rfl, ?_, ?_⟩
      · intro i hi
        exact absurd hi (by simp [writerInit])
      · intro nr hnr
        exact absurd hnr (by simp [writerInit])
    obtain ⟨s2, hloop, hinv2⟩ := pwriteLoop_zero (writerCfg c) codec
      (by omega) (List.replicate c 0).length (List.replicate c 0)
      (writerInit c g) 0 le_rfl (fun b hb => List.eq_of_mem_replicate hb)
      hinv0 (by simp only [List.length_replicate, Nat.zero_mul, Nat.zero_add]
                exact hspan)
    refine ⟨s2, ?_, hinv2.1, ?_⟩
    · unfold StreamOptimizedPwrite
      simp only []
      rw [Nat.zero_div, Nat.zero_and]
      rw [hloop, bind_ok_eq]
      simp
    · obtain ⟨g3, hfl3⟩ := zeroWriter_flush (writerCfg c) codec s2 hinv2
      exact ⟨_, hfl3, fun j => hinv2.1 j⟩

/-- C7 witness input: a writer state holding one buffered zero byte of
grain 0. -/
def sC7 : WriterState :=
  { gt := fun _ => 0
    gd := fun _ => 0
    curSP := 21
    currentGrain := { buffer := zeroBytes, bufferNr := some 0
                      bufferValidStart := 0, bufferValidEnd := 1 }
    file := emptyVFile }

/-- Witness for C7: the elision of the all-zero grain of `sC7` on a 64 KiB
writer, and the all-zero 4-byte session. -/
theorem C7_zero_elision_witness :
    (sC7.currentGrain.bufferNr = some 0 ∧
      0 < (writerCfg 65536).gtInfo.GTEs ∧ sC7.gt 0 = 0 ∧
      (∃ s2, flushGrain (writerCfg 65536) idCodec sC7 = .ok s2 ∧
        s2.gt = sC7.gt ∧ s2.file = sC7.file ∧ s2.curSP = sC7.curSP ∧
        s2.gt 0 = 0)) ∧
    (∃ s2, StreamOptimizedPwrite (writerCfg 4) idCodec (writerInit 4 zeroBytes)
        (List.replicate 4 0) 0 = .ok (s2, 4) ∧ (∀ j, s2.gt j = 0) ∧
      ∃ s3, flushGrain (writerCfg 4) idCodec s2 = .ok s3 ∧
        ∀ j, s3.gt j = 0) :=
  ⟨⟨rfl, by decide, rfl,
    C7_zero_elision.1 (writerCfg 65536) idCodec sC7 0 rfl (by decide) rfl
      (fun i h1 h2 => rfl)⟩,
    C7_zero_elision.2 4 zeroBytes idCodec⟩

/-! ## C9: grain-table entry ordering -/

lemma zlibBufferSize_spec (cfg : WriterConfig) (codec : Codec) :
    codec.deflBound (grainBytes cfg) + 12 ≤ zlibBufferSize cfg codec ∧
    zlibBufferSize cfg codec % 512 = 0 := by
  unfold zlibBufferSize VMDK_SECTOR_SIZE
  simp only []
  constructor <;> omega

lemma sectorPad_spec (n : Nat) :
    n ≤ sectorPad n ∧ sectorPad n < n + 512 ∧ sectorPad n % 512 = 0 := by
  unfold sectorPad VMDK_SECTOR_SIZE
  have hand : n &&& (512 - 1) = n % 512 := Nat.and_pow_two_sub_one_eq_mod n 9
  rw [hand]
  simp only []
  split_ifs with h <;> omega

/-- C9 (amended): in a writer state where every written grain-table entry lies
below the sector cursor — true of every state the sequential writer reaches —
a successful flush preserves that invariant, and when the flush writes grain
`nr` its new entry is strictly greater than every previously written entry,
which it leaves unchanged.  Grains flushed later therefore receive strictly
larger entries, so a session that flushes grains in increasing grain order
has strictly increasing `gt`; the order is write order, not grain order
(see the counterexample), and the cursor must not wrap. -/
theorem C9_gt_monotone (cfg : WriterConfig) (codec : Codec) (s : WriterState)
    (nr : Nat)
    (hnr : s.currentGrain.bufferNr = some nr)
    (hvE : s.currentGrain.bufferValidEnd ≠ 0)
    (hlt : nr < cfg.gtInfo.GTEs)
    (hgt0 : s.gt nr = 0)
    (hwrap : s.curSP + zlibBufferSize cfg codec / VMDK_SECTOR_SIZE < 2 ^ 32)
    (hinv : ∀ j, s.gt j ≠ 0 → s.gt j < s.curSP) :
    ∀ s2, flushGrain cfg codec s = .ok s2 →
      (∀ j, s2.gt j ≠ 0 → s2.gt j < s2.curSP) ∧
      (s2.gt nr ≠ 0 → ∀ j, s.gt j ≠ 0 →
        s.gt j < s2.gt nr ∧ s2.gt j = s.gt j) := by
  intro s2 hfl
  rw [flushGrain_spec cfg codec s nr hnr hvE hlt hgt0] at hfl
  simp only [] at hfl
  split_ifs at hfl with hz hfit
  · have hs2 := Except.ok.inj hfl
    subst hs2
    constructor
    · exact hinv
    · intro hne
      exact absurd hgt0 hne
  · have hs2 := Except.ok.inj hfl
    subst hs2
    have hzb := zlibBufferSize_spec cfg codec
    have hsp := sectorPad_spec (12 + (codec.deflate
      ((List.range (fillResult cfg s.currentGrain nr).bufferValidEnd).map
        (fillResult cfg s.currentGrain nr).buffer)).length)
    have hd2le : sectorPad (12 + (codec.deflate
        ((List.range (fillResult cfg s.currentGrain nr).bufferValidEnd).map
          (fillResult cfg s.currentGrain nr).buffer)).length) ≤
        zlibBufferSize cfg codec := by omega
    have hdivle : sectorPad (12 + (codec.deflate
        ((List.range (fillResult cfg s.currentGrain nr).bufferValidEnd).map
          (fillResult cfg s.currentGrain nr).buffer)).length) /
          VMDK_SECTOR_SIZE ≤
        zlibBufferSize cfg codec / VMDK_SECTOR_SIZE := by
      unfold VMDK_SECTOR_SIZE
      omega
    have hdiv1 : 1 ≤ sectorPad (12 + (codec.deflate
        ((List.range (fillResult cfg s.currentGrain nr).bufferValidEnd).map
          (fillResult cfg s.currentGrain nr).buffer)).length) /
          VMDK_SECTOR_SIZE := by
      unfold VMDK_SECTOR_SIZE
      omega
    have hmod : (s.curSP + sectorPad (12 + (codec.deflate
        ((List.range (fillResult cfg s.currentGrain nr).bufferValidEnd).map
          (fillResult cfg s.currentGrain nr).buffer)).length) /
          VMDK_SECTOR_SIZE) % 2 ^ 32 =
        s.curSP + sectorPad (12 + (codec.deflate
        ((List.range (fillResult cfg s.currentGrain nr).bufferValidEnd).map
          (fillResult cfg s.currentGrain nr).buffer)).length) /
          VMDK_SECTOR_SIZE :=
      Nat.mod_eq_of_lt (by omega)
    constructor
    · intro j
      simp only []
      rw [hmod]
      by_cases hj : j = nr
      · rw [if_pos hj]
        intro hne
        omega
      · rw [if_neg hj]
        intro hne
        have := hinv j hne
        omega
    · intro hne j hj0
      have hjne : j ≠ nr := by
        intro hc
        rw [hc] at hj0
        exact hj0 hgt0
      refine ⟨?_, ?_⟩
      · show s.gt j < (if nr = nr then s.curSP else s.gt nr)
        rw [if_pos rfl]
        exact hinv j hj0
      · show (if j = nr then s.curSP else s.gt j) = s.gt j
        rw [if_neg hjne]

def cfgC9 : WriterConfig := writerCfg 66048

def s0C9 : WriterState := writerInit 66048 zeroBytes

/-- Intermediate writer states of the out-of-order session on `cfgC9`: after
the one-byte pwrite to grain 1 (offset 64 KiB) the state is `p1C9`; the next
pwrite, to grain 0, first flushes grain 1 (`s2fC9`) and leaves `p2C9`.  They
are spelled exactly as the step lemmas produce them, so every equation below
stays symbolic and no 64 KiB grain image is ever evaluated. -/
def q1C9 : WriterState :=
  { s0C9 with currentGrain := resetGrain s0C9.currentGrain 1 }

def p1C9 : WriterState :=
  { q1C9 with currentGrain :=
      { buffer := fun i =>
          if 0 ≤ i ∧ i < 0 + ([1] : List Nat).length then
            ([1] : List Nat).getD (i - 0) 0
          else q1C9.currentGrain.buffer i
        bufferNr := some 1
        bufferValidStart := 0
        bufferValidEnd := 0 + ([1] : List Nat).length } }

/-- State produced by the close-time-style flush of grain 1 inside the second
pwrite: entry `gt 1 = curSP = 26`, cursor advanced by the 1024-byte frame. -/
def s2fC9 : WriterState :=
  { gt := fun j => if j = 1 then p1C9.curSP else p1C9.gt j
    gd := p1C9.gd
    curSP := (p1C9.curSP + sectorPad (12 + 512) / VMDK_SECTOR_SIZE) % 2 ^ 32
    currentGrain := fillResult cfgC9 p1C9.currentGrain 1
    file := writeBytes p1C9.file
      (frameBytes cfgC9 1
          (idCodec.deflate
            ((List.range
                (fillResult cfgC9 p1C9.currentGrain 1).bufferValidEnd).map
              (fillResult cfgC9 p1C9.currentGrain 1).buffer)) ++
        List.replicate (sectorPad (12 + 512) - (12 + 512)) 0)
      (p1C9.curSP * VMDK_SECTOR_SIZE) }

def q2C9 : WriterState :=
  { s2fC9 with currentGrain := resetGrain s2fC9.currentGrain 0 }

def p2C9 : WriterState :=
  { q2C9 with currentGrain :=
      { buffer := fun i =>
          if 0 ≤ i ∧ i < 0 + ([1] : List Nat).length then
            ([1] : List Nat).getD (i - 0) 0
          else q2C9.currentGrain.buffer i
        bufferNr := some 0
        bufferValidStart := 0
        bufferValidEnd := 0 + ([1] : List Nat).length } }

set_option maxRecDepth 8000 in
/-- C9 counterexample: on a fresh 66048-byte (129-sector, two-grain) writer
the sequential writer accepts a write to grain 1 first and then a write to
grain 0 (both pwrites return their byte counts); the close-time flush of
grain 0 then lands at the current cursor, giving `gt 0 = 28 > gt 1 = 26`:
grains `0 < 1` are both written but `gt 0 < gt 1` fails, refuting the claimed
monotonicity in grain number (entries increase in write order). -/
theorem C9_counterexample :
    ∃ p1 p2,
      StreamOptimizedPwrite cfgC9 idCodec s0C9 [1] 65536 = .ok (p1, 1) ∧
      StreamOptimizedPwrite cfgC9 idCodec p1 [1] 0 = .ok (p2, 1) ∧
      ∃ s3, flushGrain cfgC9 idCodec p2 = .ok s3 ∧
        s3.gt 0 = 28 ∧ s3.gt 1 = 26 ∧ ¬s3.gt 0 < s3.gt 1 := by
  have hgB : grainBytes cfgC9 = 65536 := by decide
  have hzlib : zlibBufferSize cfgC9 idCodec = 66048 := by decide
  -- state after the first pwrite
  have hne1 : s0C9.currentGrain.bufferNr ≠ some 1 := by
    rw [show s0C9.currentGrain.bufferNr = none from rfl]
    exact fun h => Option.noConfusion h
  have hprep1 : prepareGrain cfgC9 idCodec s0C9 1 = .ok q1C9 :=
    prepareGrain_of_ne cfgC9 idCodec s0C9 s0C9 1 hne1
      (flushGrain_bufferNr_none cfgC9 idCodec s0C9 rfl)
  have hloop1 : pwriteLoop cfgC9 idCodec ([1] : List Nat).length s0C9 [1] 1 0 =
      .ok p1C9 :=
    pwriteLoop_last cfgC9 idCodec s0C9 q1C9 [1] 1 0 0 (List.cons_ne_nil 1 [])
      (by rw [hgB]; decide) hprep1 rfl rfl rfl
  have hpw1 : StreamOptimizedPwrite cfgC9 idCodec s0C9 [1] 65536 =
      .ok (p1C9, 1) := by
    unfold StreamOptimizedPwrite
    simp only []
    rw [show (65536 : Nat) / grainBytes cfgC9 = 1 by rw [hgB]]
    rw [show (65536 : Nat) &&& (grainBytes cfgC9 - 1) = 0 by rw [hgB]; decide]
    rw [hloop1, bind_ok_eq]
    rfl
  -- flush of grain 1 inside the second pwrite
  have hP1nr : p1C9.currentGrain.bufferNr = some 1 := rfl
  have hP1vS : p1C9.currentGrain.bufferValidStart = 0 := rfl
  have hP1vE : p1C9.currentGrain.bufferValidEnd = 1 := rfl
  have hP1b0 : p1C9.currentGrain.buffer 0 = 1 := rfl
  have hgl1 : grainLenBytes cfgC9 1 = 512 := by decide
  have hI1 : ¬(p1C9.currentGrain.bufferValidStart = 0 ∧
      grainLenBytes cfgC9 1 ≤ p1C9.currentGrain.bufferValidEnd) := by
    rw [hP1vS, hP1vE, hgl1]
    omega
  have hfR1vE : (fillResult cfgC9 p1C9.currentGrain 1).bufferValidEnd = 512 := by
    unfold fillResult
    rw [if_neg hI1]
    show (if p1C9.currentGrain.bufferValidEnd < grainLenBytes cfgC9 1 then
        grainLenBytes cfgC9 1 else p1C9.currentGrain.bufferValidEnd) = 512
    rw [hP1vE, hgl1]
    rw [if_pos (by norm_num)]
  have hfR1b0 : (fillResult cfgC9 p1C9.currentGrain 1).buffer 0 = 1 := by
    unfold fillResult
    rw [if_neg hI1]
    show (if (0 : Nat) < p1C9.currentGrain.bufferValidStart then 0
        else if p1C9.currentGrain.bufferValidEnd ≤ 0 ∧
            (0 : Nat) < grainLenBytes cfgC9 1 then 0
        else p1C9.currentGrain.buffer 0) = 1
    rw [if_neg (by rw [hP1vS]; omega)]
    rw [if_neg (by rw [hP1vE]; rintro ⟨h, -⟩; omega)]
    exact hP1b0
  have hz1 : isZeroed (fillResult cfgC9 p1C9.currentGrain 1).buffer
      (fillResult cfgC9 p1C9.currentGrain 1).bufferValidEnd = false := by
    unfold isZeroed
    rw [hfR1vE]
    rw [show (8 : Nat) * (512 / 8) = 512 from by norm_num]
    refine Bool.eq_false_iff.mpr ?_
    intro hall
    rw [List.all_eq_true] at hall
    have h0 := hall 0 (List.mem_range.mpr (by norm_num))
    simp only [beq_iff_eq] at h0
    rw [hfR1b0] at h0
    exact absurd h0 (by norm_num)
  have hdef1 : (idCodec.deflate
      ((List.range (fillResult cfgC9 p1C9.currentGrain 1).bufferValidEnd).map
        (fillResult cfgC9 p1C9.currentGrain 1).buffer)).length = 512 := by
    rw [show idCodec.deflate = id from rfl, id_eq]
    rw [List.length_map, List.length_range, hfR1vE]
  have hflush1 : flushGrain cfgC9 idCodec p1C9 = .ok s2fC9 := by
    rw [flushGrain_spec cfgC9 idCodec p1C9 1 hP1nr (by rw [hP1vE]; omega)
      (by decide) rfl]
    simp only []
    rw [if_neg (by rw [hz1]; exact Bool.false_ne_true)]
    rw [hdef1, hzlib]
    rw [if_pos (by norm_num : (512 : Nat) ≤ 66048 - 12)]
    rfl
  -- state after the second pwrite
  have hne2 : p1C9.currentGrain.bufferNr ≠ some 0 := by
    rw [hP1nr]
    decide
  have hprep2 : prepareGrain cfgC9 idCodec p1C9 0 = .ok q2C9 :=
    prepareGrain_of_ne cfgC9 idCodec p1C9 s2fC9 0 hne2 hflush1
  have hloop2 : pwriteLoop cfgC9 idCodec ([1] : List Nat).length p1C9 [1] 0 0 =
      .ok p2C9 :=
    pwriteLoop_last cfgC9 idCodec p1C9 q2C9 [1] 0 0 0 (List.cons_ne_nil 1 [])
      (by rw [hgB]; decide) hprep2 rfl rfl rfl
  have hpw2 : StreamOptimizedPwrite cfgC9 idCodec p1C9 [1] 0 =
      .ok (p2C9, 1) := by
    unfold StreamOptimizedPwrite
    simp only []
    rw [Nat.zero_div, Nat.zero_and]
    rw [hloop2, bind_ok_eq]
    rfl
  -- final flush of grain 0
  have hp2nr : p2C9.currentGrain.bufferNr = some 0 := rfl
  have hp2vS : p2C9.currentGrain.bufferValidStart = 0 := rfl
  have hp2vE : p2C9.currentGrain.bufferValidEnd = 1 := rfl
  have hp2b0 : p2C9.currentGrain.buffer 0 = 1 := rfl
  have hp2gt0 : p2C9.gt 0 = 0 := rfl
  have hp2gt1 : p2C9.gt 1 = 26 := rfl
  have hp2sp : p2C9.curSP = 28 := rfl
  have hgl2 : grainLenBytes cfgC9 0 = 65536 := by decide
  have hI2 : ¬(p2C9.currentGrain.bufferValidStart = 0 ∧
      grainLenBytes cfgC9 0 ≤ p2C9.currentGrain.bufferValidEnd) := by
    rw [hp2vS, hp2vE, hgl2]
    omega
  have hfR2vE : (fillResult cfgC9 p2C9.currentGrain 0).bufferValidEnd =
      65536 := by
    unfold fillResult
    rw [if_neg hI2]
    show (if p2C9.currentGrain.bufferValidEnd < grainLenBytes cfgC9 0 then
        grainLenBytes cfgC9 0 else p2C9.currentGrain.bufferValidEnd) = 65536
    rw [hp2vE, hgl2]
    rw [if_pos (by norm_num)]
  have hfR2b0 : (fillResult cfgC9 p2C9.currentGrain 0).buffer 0 = 1 := by
    unfold fillResult
    rw [if_neg hI2]
    show (if (0 : Nat) < p2C9.currentGrain.bufferValidStart then 0
        else if p2C9.currentGrain.bufferValidEnd ≤ 0 ∧
            (0 : Nat) < grainLenBytes cfgC9 0 then 0
        else p2C9.currentGrain.buffer 0) = 1
    rw [if_neg (by rw [hp2vS]; omega)]
    rw [if_neg (by rw [hp2vE]; rintro ⟨h, -⟩; omega)]
    exact hp2b0
  have hz2 : isZeroed (fillResult cfgC9 p2C9.currentGrain 0).buffer
      (fillResult cfgC9 p2C9.currentGrain 0).bufferValidEnd = false := by
    unfold isZeroed
    rw [hfR2vE]
    rw [show (8 : Nat) * (65536 / 8) = 65536 from by norm_num]
    refine Bool.eq_false_iff.mpr ?_
    intro hall
    rw [List.all_eq_true] at hall
    have h0 := hall 0 (List.mem_range.mpr (by norm_num))
    simp only [beq_iff_eq] at h0
    rw [hfR2b0] at h0
    exact absurd h0 (by norm_num)
  have hdef2 : (idCodec.deflate
      ((List.range (fillResult cfgC9 p2C9.currentGrain 0).bufferValidEnd).map
        (fillResult cfgC9 p2C9.currentGrain 0).buffer)).length = 65536 := by
    rw [show idCodec.deflate = id from rfl, id_eq]
    rw [List.length_map, List.length_range, hfR2vE]
  refine ⟨p1C9, p2C9, hpw1, hpw2, ?_⟩
  rw [flushGrain_spec cfgC9 idCodec p2C9 0 hp2nr (by rw [hp2vE]; omega)
    (by decide) hp2gt0]
  simp only []
  rw [if_neg (by rw [hz2]; exact Bool.false_ne_true)]
  rw [hdef2, hzlib]
  rw [if_pos (by norm_num : (65536 : Nat) ≤ 66048 - 12)]
  refine ⟨_, rfl, ?_, ?_, ?_⟩
  · show (if (0 : Nat) = 0 then p2C9.curSP else p2C9.gt 0) = 28
    rw [if_pos rfl]
    exact hp2sp
  · show (if (1 : Nat) = 0 then p2C9.curSP else p2C9.gt 1) = 26
    rw [if_neg (by omega)]
    exact hp2gt1
  · show ¬(if (0 : Nat) = 0 then p2C9.curSP else p2C9.gt 0) <
        (if (1 : Nat) = 0 then p2C9.curSP else p2C9.gt 1)
    rw [if_pos rfl, if_neg (by omega), hp2sp, hp2gt1]
    omega

/-- Witness for C9 on the one-buffered-zero-byte state `sC7` of a 64 KiB
writer: all hypotheses of the amended theorem hold there. -/
theorem C9_gt_monotone_witness :
    sC7.currentGrain.bufferNr = some 0 ∧
    sC7.currentGrain.bufferValidEnd ≠ 0 ∧
    0 < (writerCfg 65536).gtInfo.GTEs ∧
    sC7.gt 0 = 0 ∧
    sC7.curSP + zlibBufferSize (writerCfg 65536) idCodec / VMDK_SECTOR_SIZE
      < 2 ^ 32 ∧
    (∀ s2, flushGrain (writerCfg 65536) idCodec sC7 = .ok s2 →
      (∀ j, s2.gt j ≠ 0 → s2.gt j < s2.curSP) ∧
      (s2.gt 0 ≠ 0 → ∀ j, sC7.gt j ≠ 0 →
        sC7.gt j < s2.gt 0 ∧ s2.gt j = sC7.gt j)) := by
  refine ⟨rfl, by decide, by decide, rfl, by decide, ?_⟩
  exact C9_gt_monotone (writerCfg 65536) idCodec sC7 0 rfl (by decide)
    (by decide) rfl (by decide) (fun j h => absurd rfl h)

/-! ## C1: write-then-read round-trip -/

lemma writeBytes_hdrSector (f : VFile) (d : List Nat) (p : Nat) :
    (writeBytes f d p).hdrSector = f.hdrSector := by
  unfold writeBytes
  split_ifs <;> rfl

lemma fillResult_validEnd (cfg : WriterConfig) (grain : GrainInfo) (nr : Nat) :
    (fillResult cfg grain nr).bufferValidEnd =
      max (grainLenBytes cfg nr) grain.bufferValidEnd := by
  unfold fillResult
  split_ifs with h h2
  · omega
  · show grainLenBytes cfg nr = grainLenBytes cfg nr ⊔ grain.bufferValidEnd
    omega
  · show grain.bufferValidEnd = grainLenBytes cfg nr ⊔ grain.bufferValidEnd
    omega

lemma grainLenBytes_le (cfg : WriterConfig) (nr : Nat)
    (hS : cfg.gtInfo.lastGrainSize ≤ grainBytes cfg) :
    grainLenBytes cfg nr ≤ grainBytes cfg := by
  unfold grainLenBytes
  split_ifs <;> omega

/-- A flush of an in-range, not-yet-written grain whose valid window fits the
grain always succeeds (the deflate output fits the zlib buffer by the codec
bound), without touching the header sector or other table entries. -/
lemma flushGrain_ok (cfg : WriterConfig) (codec : Codec) (s : WriterState)
    (nr : Nat) (hnr : s.currentGrain.bufferNr = some nr)
    (hlt : nr < cfg.gtInfo.GTEs) (hgt0 : s.gt nr = 0)
    (hvEle : s.currentGrain.bufferValidEnd ≤ grainBytes cfg)
    (hS : cfg.gtInfo.lastGrainSize ≤ grainBytes cfg) :
    ∃ s2, flushGrain cfg codec s = .ok s2 ∧
      s2.file.hdrSector = s.file.hdrSector ∧
      (∀ j, j ≠ nr → s2.gt j = s.gt j) := by
  by_cases hvE : s.currentGrain.bufferValidEnd = 0
  · exact ⟨s, flushGrain_validEnd_zero cfg codec s nr hnr hvE, rfl,
      fun j h => rfl⟩
  · rw [flushGrain_spec cfg codec s nr hnr hvE hlt hgt0]
    simp only []
    have hilen : ((List.range
        (fillResult cfg s.currentGrain nr).bufferValidEnd).map
        (fillResult cfg s.currentGrain nr).buffer).length ≤
        grainBytes cfg := by
      rw [List.length_map, List.length_range, fillResult_validEnd]
      have := grainLenBytes_le cfg nr hS
      omega
    have hfit : (codec.deflate ((List.range
        (fillResult cfg s.currentGrain nr).bufferValidEnd).map
        (fillResult cfg s.currentGrain nr).buffer)).length ≤
        zlibBufferSize cfg codec - 12 := by
      have h1 := codec.len_le ((List.range
        (fillResult cfg s.currentGrain nr).bufferValidEnd).map
        (fillResult cfg s.currentGrain nr).buffer)
      have h2 := codec.bound_mono _ _ hilen
      have h3 := (zlibBufferSize_spec cfg codec).1
      omega
    split_ifs with hz
    · exact ⟨_, rfl, rfl, fun j h => rfl⟩
    · refine ⟨_, rfl, ?_, ?_⟩
      · show (writeBytes s.file _ _).hdrSector = s.file.hdrSector
        exact writeBytes_hdrSector _ _ _
      · intro j h
        show (if j = nr then s.curSP else s.gt j) = s.gt j
        rw [if_neg h]

/-- Invariant of a sequential write session that has reached grain `grainNr`:
the valid window starts at 0 and fits the grain, no grain at or past `grainNr`
is written yet, and the buffered grain (if any) is at or before `grainNr`,
unwritten, and in range when nonempty. -/
def seqWriter (cfg : WriterConfig) (grainNr : Nat) (s : WriterState) : Prop :=
  s.currentGrain.bufferValidStart = 0 ∧
  s.currentGrain.bufferValidEnd ≤ grainBytes cfg ∧
  (∀ j, grainNr ≤ j → s.gt j = 0) ∧
  (∀ m, s.currentGrain.bufferNr = some m →
    m ≤ grainNr ∧ s.gt m = 0 ∧
    (s.currentGrain.bufferValidEnd ≠ 0 → m < cfg.gtInfo.GTEs))

lemma seqWriter_flush (cfg : WriterConfig) (codec : Codec) (s : WriterState)
    (grainNr : Nat) (hS : cfg.gtInfo.lastGrainSize ≤ grainBytes cfg)
    (hinv : seqWriter cfg grainNr s)
    (hne : s.currentGrain.bufferNr ≠ some grainNr) :
    ∃ s2, flushGrain cfg codec s = .ok s2 ∧
      s2.file.hdrSector = s.file.hdrSector ∧
      (∀ j, grainNr ≤ j → s2.gt j = s.gt j) := by
  obtain ⟨hvS, hvEle, hsuf, hbnr⟩ := hinv
  cases hb : s.currentGrain.bufferNr with
  | none =>
    exact ⟨s, flushGrain_bufferNr_none cfg codec s hb, rfl, fun j _ => rfl⟩
  | some m =>
    by_cases hvE : s.currentGrain.bufferValidEnd = 0
    · exact ⟨s, flushGrain_validEnd_zero cfg codec s m hb hvE, rfl,
        fun j _ => rfl⟩
    · obtain ⟨hm1, hm2, hm3⟩ := hbnr m hb
      obtain ⟨s2, hok, hhdr, hpres⟩ := flushGrain_ok cfg codec s m hb
        (hm3 hvE) hm2 hvEle hS
      have hmne : m ≠ grainNr := by
        intro hc
        rw [hc] at hb
        exact hne hb
      refine ⟨s2, hok, hhdr, ?_⟩
      intro j hj
      exact hpres j (by omega)

/-- A flush in any sequential-session state succeeds and keeps the header
sector. -/
lemma seqWriter_flush_any (cfg : WriterConfig) (codec : Codec)
    (s : WriterState) (grainNr : Nat)
    (hS : cfg.gtInfo.lastGrainSize ≤ grainBytes cfg)
    (hinv : seqWriter cfg grainNr s) :
    ∃ s2, flushGrain cfg codec s = .ok s2 ∧
      s2.file.hdrSector = s.file.hdrSector := by
  obtain ⟨hvS, hvEle, hsuf, hbnr⟩ := hinv
  cases hb : s.currentGrain.bufferNr with
  | none => exact ⟨s, flushGrain_bufferNr_none cfg codec s hb, rfl⟩
  | some m =>
    by_cases hvE : s.currentGrain.bufferValidEnd = 0
    · exact ⟨s, flushGrain_validEnd_zero cfg codec s m hb hvE, rfl⟩
    · obtain ⟨hm1, hm2, hm3⟩ := hbnr m hb
      obtain ⟨s2, hok, hhdr, -⟩ := flushGrain_ok cfg codec s m hb
        (hm3 hvE) hm2 hvEle hS
      exact ⟨s2, hok, hhdr⟩

lemma pwriteLoop_seq (cfg : WriterConfig) (codec : Codec)
    (hgB : 0 < grainBytes cfg)
    (hS : cfg.gtInfo.lastGrainSize ≤ grainBytes cfg) :
    ∀ fuel buf s grainNr,
      buf.length ≤ fuel →
      seqWriter cfg grainNr s →
      grainNr * grainBytes cfg + buf.length ≤
        cfg.gtInfo.GTEs * grainBytes cfg →
      ∃ s2 g2, pwriteLoop cfg codec fuel s buf grainNr 0 = .ok s2 ∧
        seqWriter cfg g2 s2 ∧ s2.file.hdrSector = s.file.hdrSector := by
  intro fuel
  induction fuel with
  | zero =>
    intro buf s grainNr hf hinv hspan
    have hnil : buf = [] := List.eq_nil_of_length_eq_zero (by omega)
    subst hnil
    exact ⟨s, grainNr, rfl, hinv, rfl⟩
  | succ f ih =>
    intro buf s grainNr hf hinv hspan
    cases buf with
    | nil => exact ⟨s, grainNr, rfl, hinv, rfl⟩
    | cons b bs =>
      obtain ⟨hvS, hvEle, hsuf, hbnr⟩ := hinv
      simp only [List.length_cons] at hf hspan
      have hgrlt : grainNr < cfg.gtInfo.GTEs := by
        by_contra hcon
        push_neg at hcon
        have hmul := Nat.mul_le_mul_right (grainBytes cfg) hcon
        omega
      have hmul2 : (grainNr + 1) * grainBytes cfg ≤
          cfg.gtInfo.GTEs * grainBytes cfg :=
        Nat.mul_le_mul_right _ (by omega)
      rw [Nat.add_mul, Nat.one_mul] at hmul2
      obtain ⟨s1, hprep, h1gt0, h1vS, h1vEle, h1bnr, h1suf, h1hdr⟩ :
          ∃ s1, prepareGrain cfg codec s grainNr = .ok s1 ∧
            s1.gt grainNr = 0 ∧
            s1.currentGrain.bufferValidStart = 0 ∧
            s1.currentGrain.bufferValidEnd ≤ grainBytes cfg ∧
            s1.currentGrain.bufferNr = some grainNr ∧
            (∀ j, grainNr ≤ j → s1.gt j = 0) ∧
            s1.file.hdrSector = s.file.hdrSector := by
        by_cases hsame : s.currentGrain.bufferNr = some grainNr
        · exact ⟨s, prepareGrain_same cfg codec s grainNr hsame,
            hsuf grainNr le_rfl, hvS, hvEle, hsame, hsuf, rfl⟩
        · obtain ⟨s2f, hfl, hfhdr, hfpres⟩ := seqWriter_flush cfg codec s
            grainNr hS ⟨hvS, hvEle, hsuf, hbnr⟩ hsame
          refine ⟨_, prepareGrain_of_ne cfg codec s s2f grainNr hsame hfl,
            ?_, rfl, ?_, rfl, ?_, ?_⟩
          · show s2f.gt grainNr = 0
            rw [hfpres grainNr le_rfl]
            exact hsuf grainNr le_rfl
          · show (0 : Nat) ≤ grainBytes cfg
            omega
          · intro j hj
            show s2f.gt j = 0
            rw [hfpres j hj]
            exact hsuf j hj
          · exact hfhdr
      simp only [pwriteLoop]
      rw [hprep, bind_ok_eq]
      rw [← h1hdr]
      by_cases hvE0 : s1.currentGrain.bufferValidEnd = 0
      · rw [if_pos hvE0, bind_ok_eq]
        refine ih _ _ _ ?_ ?_ ?_
        · simp only [List.length_drop, List.length_cons]
          omega
        · refine ⟨?_, ?_, ?_, ?_⟩
          · simp [h1vS]
          · show (if s1.currentGrain.bufferValidEnd <
                0 + min (b :: bs).length (grainBytes cfg - 0) then
                0 + min (b :: bs).length (grainBytes cfg - 0)
              else s1.currentGrain.bufferValidEnd) ≤ grainBytes cfg
            split_ifs <;> omega
          · intro j hj
            show s1.gt j = 0
            exact h1suf j (by omega)
          · intro m hm
            have heq := h1bnr.symm.trans hm
            cases Option.some.inj heq
            exact ⟨by omega, h1gt0, fun _ => hgrlt⟩
        · simp only [List.length_drop, List.length_cons]
          rw [Nat.add_mul, Nat.one_mul]
          omega
      · rw [if_neg hvE0]
        rw [if_neg (show ¬(0 + min (b :: bs).length (grainBytes cfg - 0) <
            s1.currentGrain.bufferValidStart ∨
            s1.currentGrain.bufferValidEnd < 0) by
          rw [h1vS]
          simp)]
        rw [bind_ok_eq]
        refine ih _ _ _ ?_ ?_ ?_
        · simp only [List.length_drop, List.length_cons]
          omega
        · refine ⟨?_, ?_, ?_, ?_⟩
          · simp [h1vS]
          · show (if s1.currentGrain.bufferValidEnd <
                0 + min (b :: bs).length (grainBytes cfg - 0) then
                0 + min (b :: bs).length (grainBytes cfg - 0)
              else s1.currentGrain.bufferValidEnd) ≤ grainBytes cfg
            split_ifs <;> omega
          · intro j hj
            show s1.gt j = 0
            exact h1suf j (by omega)
          · intro m hm
            have heq := h1bnr.symm.trans hm
            cases Option.some.inj heq
            exact ⟨by omega, h1gt0, fun _ => hgrlt⟩
        · simp only [List.length_drop, List.length_cons]
          rw [Nat.add_mul, Nat.one_mul]
          omega

/-- The file produced by a fully successful `StreamOptimizedClose` whose final
flush yielded state `s1`: end-of-stream marker, grain directory and tables,
descriptor, then the two-phase header commit. -/
def closeFile (cfg : WriterConfig) (s1 : WriterState) (descBytes : List Nat) :
    VFile :=
  writeHeaderSector
    (writeHeaderSector
      (writeBytes
        (writeBytes (writeEOS s1.file s1.curSP)
          (gdgtBytes cfg s1.gd s1.gt) (cfg.diskHdr.gdOffset * VMDK_SECTOR_SIZE))
        descBytes (cfg.diskHdr.descriptorOffset * VMDK_SECTOR_SIZE))
      (setSparseExtentHeader cfg.diskHdr true))
    (setSparseExtentHeader cfg.diskHdr false)

set_option maxRecDepth 10000 in
lemma close_ok (cfg : WriterConfig) (codec : Codec) (s s1 : WriterState)
    (descBytes : List Nat) (h : flushGrain cfg codec s = .ok s1) :
    StreamOptimizedClose cfg codec s descBytes allOk =
      .ok (closeFile cfg s1 descBytes) := by
  unfold StreamOptimizedClose
  rw [h, bind_ok_eq]
  have e : ∀ {α : Type} (X Y : α), (if ¬(true : Bool) = true then X else Y) = Y :=
    fun X Y => if_neg (by simp)
  simp only [allOk, e]
  rfl

lemma obind_some {α β : Type} (x : α) (f : α → Option β) :
    (some x >>= f) = f x := rfl

lemma entry32_zeroBytes (j : Nat) : entry32 zeroBytes j = 0 := rfl

/-- Reading from a reader whose table is all zero returns zeros, truncated at
the end of the disk. -/
lemma preadLoop_zero_gt (sdi : SparseDiskInfo) (codec : Codec)
    (hgt : ∀ j, sdi.gt j = 0)
    (hS : sdi.gtInfo.lastGrainSize < rGrainBytes sdi) :
    ∀ len grainNr skip, skip < rGrainBytes sdi →
      preadLoop sdi codec len grainNr skip = .ok (List.replicate
        (min len (sdi.gtInfo.lastGrainNr * rGrainBytes sdi +
          sdi.gtInfo.lastGrainSize - (grainNr * rGrainBytes sdi + skip))) 0) := by
  intro len
  induction len using Nat.strong_induction_on with
  | _ len ih =>
  intro grainNr skip hskip
  rw [preadLoop.eq_def]
  by_cases hlen : len = 0
  · rw [dif_pos hlen, hlen]
    simp
  · rw [dif_neg hlen]
    by_cases hbrk : rGrainLen sdi grainNr ≤ skip
    · rw [dif_pos hbrk]
      rw [show min len (sdi.gtInfo.lastGrainNr * rGrainBytes sdi +
          sdi.gtInfo.lastGrainSize - (grainNr * rGrainBytes sdi + skip)) = 0
        from ?_]
      · rfl
      · unfold rGrainLen at hbrk
        by_cases h1 : grainNr < sdi.gtInfo.lastGrainNr
        · rw [if_pos h1] at hbrk
          omega
        · rw [if_neg h1] at hbrk
          by_cases h2 : grainNr = sdi.gtInfo.lastGrainNr
          · rw [if_pos h2] at hbrk
            rw [h2]
            omega
          · rw [if_neg h2] at hbrk
            have hmul : (sdi.gtInfo.lastGrainNr + 1) * rGrainBytes sdi ≤
                grainNr * rGrainBytes sdi :=
              Nat.mul_le_mul_right _ (by omega)
            rw [Nat.add_mul, Nat.one_mul] at hmul
            omega
    · rw [dif_neg hbrk]
      simp only []
      have hg : preadGrain sdi codec grainNr skip
          (min len (rGrainLen sdi grainNr - skip)) =
          .ok (List.replicate (min len (rGrainLen sdi grainNr - skip)) 0) := by
        unfold preadGrain
        simp only []
        rw [if_pos (hgt grainNr)]
      rw [hg, bind_ok_eq]
      rw [ih (len - min len (rGrainLen sdi grainNr - skip)) (by omega)
        (grainNr + 1) 0 (by omega)]
      rw [bind_ok_eq]
      rw [← List.replicate_add]
      rw [show min len (rGrainLen sdi grainNr - skip) +
          min (len - min len (rGrainLen sdi grainNr - skip))
            (sdi.gtInfo.lastGrainNr * rGrainBytes sdi +
              sdi.gtInfo.lastGrainSize -
              ((grainNr + 1) * rGrainBytes sdi + 0)) =
          min len (sdi.gtInfo.lastGrainNr * rGrainBytes sdi +
            sdi.gtInfo.lastGrainSize - (grainNr * rGrainBytes sdi + skip))
        from ?_]
      unfold rGrainLen at hbrk ⊢
      by_cases h1 : grainNr < sdi.gtInfo.lastGrainNr
      · rw [if_pos h1] at hbrk ⊢
        have hmul : (grainNr + 1) * rGrainBytes sdi ≤
            sdi.gtInfo.lastGrainNr * rGrainBytes sdi :=
          Nat.mul_le_mul_right _ (by omega)
        rw [Nat.add_mul, Nat.one_mul] at hmul ⊢
        omega
      · rw [if_neg h1] at hbrk ⊢
        by_cases h2 : grainNr = sdi.gtInfo.lastGrainNr
        · rw [if_pos h2] at hbrk ⊢
          rw [h2]
          rw [Nat.add_mul, Nat.one_mul]
          omega
        · rw [if_neg h2] at hbrk
          omega

/-- The header written by close is read back unchanged. -/
lemma getSet_writerHdr (c : Nat) :
    getSparseExtentHeader (setSparseExtentHeader (writerHdr c) false) =
      some (writerHdr c) := by
  have hmag : (setSparseExtentHeader (writerHdr c) false).magicNumber =
      SPARSE_MAGICNUMBER := rfl
  have hver : (setSparseExtentHeader (writerHdr c) false).version =
      SPARSE_VERSION_INCOMPAT_FLAGS := rfl
  have hflg : (setSparseExtentHeader (writerHdr c) false).flags = 0x30001 := rfl
  have hch1 : (setSparseExtentHeader (writerHdr c) false).singleEndLineChar =
      SPARSE_SINGLE_END_LINE_CHAR := rfl
  have hch2 : (setSparseExtentHeader (writerHdr c) false).nonEndLineChar =
      SPARSE_NON_END_LINE_CHAR := rfl
  have hch3 : (setSparseExtentHeader (writerHdr c) false).doubleEndLineChar1 =
      SPARSE_DOUBLE_END_LINE_CHAR1 := rfl
  have hch4 : (setSparseExtentHeader (writerHdr c) false).doubleEndLineChar2 =
      SPARSE_DOUBLE_END_LINE_CHAR2 := rfl
  unfold getSparseExtentHeader
  split_ifs with h1 h2 h3 h4 h5
  · rw [hmag] at h1
    exact absurd rfl h1
  · rw [hver] at h2
    exact absurd h2 (lt_irrefl _)
  · rw [hflg] at h3
    exact absurd h3 (by decide)
  · rw [hflg] at h4
    rw [hch1] at h4
    rw [hch2] at h4
    rw [hch3] at h4
    rw [hch4] at h4
    exact absurd h4 (by decide)
  · rw [hflg] at h5
    exact absurd h5 (by decide)
  · rfl

lemma getGDGT_writerHdr (c : Nat) :
    getGDGT (writerHdr c) = some (writerGtInfo c) := by
  have hg : (writerHdr c).grainSize = 128 := rfl
  have hn : (writerHdr c).numGTEsPerGT = 512 := rfl
  unfold getGDGT
  rw [if_neg (by rw [hg]; decide), if_neg (by rw [hn]; decide)]
  rfl

/-- The reader state produced by opening a 2^57-byte disk whose grain
directory is empty (`GTs` wrapped to 0). -/
def sdiBig (f : VFile) : SparseDiskInfo :=
  { diskHdr := writerHdr (2 ^ 57), gtInfo := writerGtInfo (2 ^ 57)
    gt := fun j => entry32 zeroBytes j, file := f }

set_option maxRecDepth 20000 in
lemma sdiBig_pread (f : VFile) :
    SparsePread (sdiBig f) idCodec (2 ^ 57) 0 =
      .ok (List.replicate (2 ^ 57) 0) := by
  have e : rGrainBytes (sdiBig f) = 65536 := by
    unfold rGrainBytes
    rw [show (sdiBig f).diskHdr.grainSize = 128 from rfl]
    rfl
  have e1 : (sdiBig f).gtInfo.lastGrainNr = 2 ^ 41 := rfl
  have e2 : (sdiBig f).gtInfo.lastGrainSize = 0 := rfl
  have hSr : (sdiBig f).gtInfo.lastGrainSize < rGrainBytes (sdiBig f) := by
    rw [e, e2]
    omega
  unfold SparsePread
  simp only []
  rw [Nat.zero_div, Nat.zero_mod, Nat.zero_and]
  rw [preadLoop_zero_gt (sdiBig f) idCodec (fun j => rfl) hSr (2 ^ 57) 0 0
    (by rw [e]; omega)]
  refine congrArg Except.ok (congrArg (fun n => List.replicate n (0 : Nat)) ?_)
  rw [e, e1, e2]
  norm_num

set_option maxRecDepth 20000 in
lemma open_closeFile_big (s3f : WriterState) :
    Sparse_Open (closeFile (writerCfg (2 ^ 57)) s3f []) =
      some (sdiBig (closeFile (writerCfg (2 ^ 57)) s3f [])) := by
  have hfile_size : 512 ≤ (closeFile (writerCfg (2 ^ 57)) s3f []).size :=
    Nat.le_max_right _ _
  unfold Sparse_Open
  rw [show readHeaderSector (closeFile (writerCfg (2 ^ 57)) s3f []) =
      some (setSparseExtentHeader (writerHdr (2 ^ 57)) false) from by
    unfold readHeaderSector
    rw [if_pos hfile_size]
    rfl]
  rfl


/-- C1 counterexample: at capacity 2^57 bytes (2^41 grains) the `uint32_t`
`GTs` count wraps to 0, so close writes no grain tables and open loads an
all-zero table; the full round-trip session succeeds end to end, yet reading
the disk back yields zeros instead of the written ones. -/
theorem C1_counterexample :
    StreamOptimized_Create (2 ^ 57) zeroBytes =
      some (writerCfg (2 ^ 57), writerInit (2 ^ 57) zeroBytes) ∧
    ∃ s2, StreamOptimizedPwrite (writerCfg (2 ^ 57)) idCodec
        (writerInit (2 ^ 57) zeroBytes) (List.replicate (2 ^ 57) 1) 0 =
        .ok (s2, 2 ^ 57) ∧
      ∃ f, StreamOptimizedClose (writerCfg (2 ^ 57)) idCodec s2 [] allOk =
          .ok f ∧
        ∃ sdi, Sparse_Open f = some sdi ∧
          SparsePread sdi idCodec (2 ^ 57) 0 =
            .ok (List.replicate (2 ^ 57) 0) ∧
          List.replicate (2 ^ 57) (0 : Nat) ≠ List.replicate (2 ^ 57) 1 := by
  have hgB : grainBytes (writerCfg (2 ^ 57)) = 65536 := by
    unfold grainBytes
    rw [show (writerCfg (2 ^ 57)).diskHdr.grainSize = 128 from rfl]
    rfl
  have hS : (writerCfg (2 ^ 57)).gtInfo.lastGrainSize ≤
      grainBytes (writerCfg (2 ^ 57)) := by
    rw [show (writerCfg (2 ^ 57)).gtInfo.lastGrainSize = 0 from rfl]
    exact Nat.zero_le _
  have hgBpos : 0 < grainBytes (writerCfg (2 ^ 57)) := by
    rw [hgB]
    omega
  have hinv0 : seqWriter (writerCfg (2 ^ 57)) 0
      (writerInit (2 ^ 57) zeroBytes) := by
    refine ⟨rfl, ?_, fun j _ => rfl, ?_⟩
    · rw [show (writerInit (2 ^ 57) zeroBytes).currentGrain.bufferValidEnd = 0
        from rfl]
      exact Nat.zero_le _
    · intro m hm
      exact absurd hm (by simp [writerInit])
  obtain ⟨s2, g2, hloop, hinv2, hhdr2⟩ := pwriteLoop_seq (writerCfg (2 ^ 57))
    idCodec hgBpos hS (List.replicate (2 ^ 57) 1).length
    (List.replicate (2 ^ 57) 1) (writerInit (2 ^ 57) zeroBytes) 0 le_rfl hinv0
    (by simp only [List.length_replicate, Nat.zero_mul, Nat.zero_add]
        rw [show (writerCfg (2 ^ 57)).gtInfo.GTEs = 2 ^ 41 from rfl, hgB]
        norm_num)
  have hpw : StreamOptimizedPwrite (writerCfg (2 ^ 57)) idCodec
      (writerInit (2 ^ 57) zeroBytes) (List.replicate (2 ^ 57) 1) 0 =
      .ok (s2, 2 ^ 57) := by
    unfold StreamOptimizedPwrite
    simp only []
    rw [Nat.zero_div, Nat.zero_and]
    rw [hloop, bind_ok_eq]
    rw [List.length_replicate]
  obtain ⟨s3f, hfl, hfhdr⟩ := seqWriter_flush_any (writerCfg (2 ^ 57))
    idCodec s2 g2 hS hinv2
  have hclose : StreamOptimizedClose (writerCfg (2 ^ 57)) idCodec s2 [] allOk =
      .ok (closeFile (writerCfg (2 ^ 57)) s3f []) :=
    close_ok _ idCodec s2 s3f [] hfl
  have hopen : Sparse_Open (closeFile (writerCfg (2 ^ 57)) s3f []) =
      some (sdiBig (closeFile (writerCfg (2 ^ 57)) s3f [])) :=
    open_closeFile_big s3f
  have hpread := sdiBig_pread (closeFile (writerCfg (2 ^ 57)) s3f [])
  have hne : List.replicate (2 ^ 57) (0 : Nat) ≠ List.replicate (2 ^ 57) 1 := by
    intro hrep
    rw [show (2 : Nat) ^ 57 = (2 ^ 57 - 1) + 1 from by norm_num] at hrep
    rw [List.replicate_succ, List.replicate_succ] at hrep
    injection hrep with h1 h2
    exact absurd h1 (by norm_num)
  exact ⟨StreamOptimized_Create_eq (2 ^ 57) zeroBytes, s2, hpw,
    closeFile (writerCfg (2 ^ 57)) s3f [], hclose,
    sdiBig (closeFile (writerCfg (2 ^ 57)) s3f []), hopen, hpread, hne⟩
